import Mathlib

/-!
Verification of the incognitomail core: a shallow embedding of the
persistence engine (`persistence.go`), the postfix map-file synchronizer
(`postfixwriter.go`), the random token generator (`random.go`) and the
command facade / actor (`server.go`: `SendCommand`, `handleCommands` and
the `Server` operations), together with proofs settling the frozen claims
about them.

The embedded key-value store is one flat top-level bucket namespace, as
in the underlying embedded store: the three static buckets `targets`,
`accounts` and `handles` (created at `OpenIncognitoData`) and the dynamic
per-account buckets all live in the same name space, so an account secret
equal to one of the three static bucket names collides with that static
bucket — `tx.Bucket(secret)` finds the static bucket.  Buckets are
association lists from keys to stored byte strings; creation timestamps
are stored through the injective encoding `gobTime` (the program only
ever reads them back itself, so the encoding is opaque).  Three
behaviours of the underlying embedded store are load-bearing and are
modelled explicitly: a `Put` with a blank key is rejected with a
key-required error (rolling the transaction back), calling a bucket
method on a missing (nil) bucket dereferences nil and panics, and
successive bucket operations inside one transaction see each other's
writes (sequential state passing, so a per-secret bucket that aliases a
static bucket behaves as one bucket).  Panics are represented by an
explicit `panicked` outcome; a transaction that errors or panics is
rolled back, leaving the store unchanged.
-/

set_option maxRecDepth 8000

/-- Association-list lookup: first binding of the key, as in a bucket. -/
def alookup {β : Type} : List (String × β) → String → Option β
  | [], _ => none
  | p :: rest, k => if p.1 = k then some p.2 else alookup rest k

/-- Remove every binding of a key (bucket delete). -/
def aerase {β : Type} : List (String × β) → String → List (String × β)
  | [], _ => []
  | p :: rest, k => if p.1 = k then aerase rest k else p :: aerase rest k

/-- Set a key to a value (bucket put): the key becomes bound exactly once. -/
def aset {β : Type} (l : List (String × β)) (k : String) (v : β) : List (String × β) :=
  (k, v) :: aerase l k

/-- `targetsBucketName` from `persistence.go`. -/
def targetsBucketName : String := "targets"

/-- `accountsBucketName` from `persistence.go`. -/
def accountsBucketName : String := "accounts"

/-- `handlesBucketName` from `persistence.go`. -/
def handlesBucketName : String := "handles"

/-- The secret names one of the three static buckets, with which every
per-account bucket shares the store's top-level bucket namespace. -/
def isStaticName (s : String) : Bool :=
  s == targetsBucketName || s == accountsBucketName || s == handlesBucketName

/-- The store: one flat top-level map from bucket names to buckets,
holding the three static buckets and one bucket per account secret. -/
structure Store where
  buckets : List (String × List (String × String))
  deriving DecidableEq

/-- The store right after `OpenIncognitoData`: the three static buckets
exist and are empty, and there are no per-account buckets. -/
def initialStore : Store :=
  ⟨[(targetsBucketName, []), (accountsBucketName, []), (handlesBucketName, [])]⟩

/-- Errors of the program (`persistence.go`, `server.go`), plus the
embedded store's own blank-key rejection (`keyRequired`), which the
persistence engine propagates as-is. -/
inductive PError where
  | emptySecret
  | emptyTarget
  | accountNotFound
  | accountExists
  | handleNotFound
  | handleExists
  | invalidPermission
  | emptyCommand
  | unknownCommand
  | wrongCommand
  | keyRequired
  deriving DecidableEq

/-- Outcome of a store operation: normal value, error (transaction rolled
back), or a runtime panic (nil bucket dereference, transaction rolled back). -/
inductive POut (α : Type) where
  | ok (a : α)
  | err (e : PError)
  | panicked
  deriving DecidableEq

/-- Opaque injective serialization of a creation timestamp
(`time.Now().GobEncode()`); only this program reads it back. -/
def gobTime (now : Nat) : String :=
  String.append ("gob:") (toString now)

/-- `IncognitoData.NewAccount` from `persistence.go`: validates secret and
target, fails with `ErrAccountExists` if a bucket with the secret's name
already exists in the shared top-level namespace — including the three
static buckets, so a secret equal to `targets`/`accounts`/`handles`
always conflicts — and otherwise creates the bucket and writes the target
and creation-time entries into the static `targets`/`accounts` buckets
(a nil static bucket would be dereferenced by `Put` and panic). -/
def NewAccount (now : Nat) (secret target : String) (st : Store) : POut Unit × Store :=
  if secret = "" then (.err .emptySecret, st)
  else if target = "" then (.err .emptyTarget, st)
  else
    match alookup st.buckets secret with
    | some _ => (.err .accountExists, st)
    | none =>
      match alookup (aset st.buckets secret []) targetsBucketName with
      | none => (.panicked, st)
      | some tb =>
        match alookup (aset (aset st.buckets secret []) targetsBucketName
            (aset tb secret target)) accountsBucketName with
        | none => (.panicked, st)
        | some ab =>
          (.ok (), ⟨aset (aset (aset st.buckets secret []) targetsBucketName
            (aset tb secret target)) accountsBucketName (aset ab secret (gobTime now))⟩)

/-- `IncognitoData.ListAccountHandles`: returns the keys of the bucket
named by the secret — for a secret naming a static bucket, that static
bucket's keys.  The source performs `b.ForEach` without checking the
bucket for nil, so a missing bucket dereferences nil and panics. -/
def ListAccountHandles (secret : String) (st : Store) : POut (List String) :=
  if secret = "" then .err .emptySecret
  else
    match alookup st.buckets secret with
    | none => .panicked
    | some b => .ok (b.map Prod.fst)

/-- `IncognitoData.DeleteAccountHandle`: no-op on empty secret or handle,
no-op when no bucket with the secret's name exists (the error is
swallowed); otherwise deletes the handle key from that bucket and then
from the global `handles` bucket — which is fetched without a nil check,
and which is the same bucket when the secret equals `handles` (the two
deletes then coincide).  The Go function returns nothing: outcomes are a
normal return (`ok`) or a panic. -/
def DeleteAccountHandle (secret handle : String) (st : Store) : POut Unit × Store :=
  if secret = "" ∨ handle = "" then (.ok (), st)
  else
    match alookup st.buckets secret with
    | none => (.ok (), st)
    | some b =>
      match alookup (aset st.buckets secret (aerase b handle)) handlesBucketName with
      | none => (.panicked, st)
      | some hb =>
        (.ok (), ⟨aset (aset st.buckets secret (aerase b handle)) handlesBucketName
          (aerase hb handle)⟩)

/-- The handle-deletion loop of `IncognitoData.DeleteAccount`: one
`DeleteAccountHandle` transaction per listed handle; a panic aborts the
loop with the already-committed deletions retained. -/
def deleteHandlesLoop (secret : String) : List String → Store → POut Unit × Store
  | [], st => (.ok (), st)
  | h :: rest, st =>
    match DeleteAccountHandle secret h st with
    | (.panicked, st1) => (.panicked, st1)
    | (_, st1) => deleteHandlesLoop secret rest st1

/-- `IncognitoData.DeleteAccount`: no-op on empty secret; lists the
bucket's handles (panicking on a missing bucket, see
`ListAccountHandles`), deletes each in its own transaction, then in a
final transaction removes the bucket and the `targets`/`accounts`
entries.  In that final transaction the `targets` and `accounts` buckets
are fetched after the bucket deletion without nil checks: deleting the
account named `targets` (or `accounts`) panics there and the final
transaction rolls back — but the per-handle deletions have already
committed. -/
def DeleteAccount (secret : String) (st : Store) : POut Unit × Store :=
  if secret = "" then (.ok (), st)
  else
    match ListAccountHandles secret st with
    | .err _ => (.ok (), st)
    | .panicked => (.panicked, st)
    | .ok hs =>
      match deleteHandlesLoop secret hs st with
      | (.panicked, st1) => (.panicked, st1)
      | (_, st1) =>
        match alookup (aerase st1.buckets secret) targetsBucketName with
        | none => (.panicked, st1)
        | some tb =>
          match alookup (aset (aerase st1.buckets secret) targetsBucketName
              (aerase tb secret)) accountsBucketName with
          | none => (.panicked, st1)
          | some ab =>
            (.ok (), ⟨aset (aset (aerase st1.buckets secret) targetsBucketName
              (aerase tb secret)) accountsBucketName (aerase ab secret)⟩)

/-- `IncognitoData.NewAccountHandle`: validates the secret, requires a
bucket with the secret's name in the shared top-level namespace — a
secret naming a static bucket finds that static bucket and proceeds —
requires the handle to be globally fresh, then writes the handle with one
creation timestamp into that bucket and into the global `handles` bucket
(the same bucket when the secret equals `handles`).  A blank handle
passes the freshness check but the subsequent `Put` is rejected by the
store with its key-required error, which rolls the transaction back and
is returned as-is. -/
def NewAccountHandle (now : Nat) (secret handle : String) (st : Store) : POut Unit × Store :=
  if secret = "" then (.err .emptySecret, st)
  else
    match alookup st.buckets secret with
    | none => (.err .accountNotFound, st)
    | some b =>
      match alookup st.buckets handlesBucketName with
      | none => (.panicked, st)
      | some hb =>
        match alookup hb handle with
        | some _ => (.err .handleExists, st)
        | none =>
          if handle = "" then (.err .keyRequired, st)
          else
            match alookup (aset st.buckets secret (aset b handle (gobTime now)))
                handlesBucketName with
            | none => (.panicked, st)
            | some hb1 =>
              (.ok (), ⟨aset (aset st.buckets secret (aset b handle (gobTime now)))
                handlesBucketName (aset hb1 handle (gobTime now))⟩)

/-- `IncognitoData.GetAccountTarget`: reads the target from the static
`targets` bucket, which is fetched without a nil check. -/
def GetAccountTarget (secret : String) (st : Store) : POut String :=
  if secret = "" then .err .emptySecret
  else
    match alookup st.buckets targetsBucketName with
    | none => .panicked
    | some tb =>
      match alookup tb secret with
      | none => .err .accountNotFound
      | some t => .ok t

/-- `IncognitoData.HasAccount`: existence check against the static
`accounts` bucket, false on empty input.  The source fetches the bucket
without a nil check; no committed transaction can remove the `accounts`
bucket (the only deleting transaction panics at its own subsequent
nil-bucket access and rolls back), so the nil-bucket panic is unreachable
and the model reads a missing bucket as empty. -/
def HasAccount (secret : String) (st : Store) : Bool :=
  if secret = "" then false
  else (alookup ((alookup st.buckets accountsBucketName).getD []) secret).isSome

/-- `IncognitoData.HasHandleGlobal`: existence check against the global
`handles` bucket, false on empty input.  The source fetches the bucket
without a nil check; the model reads a missing bucket as empty, which
diverges from the source (a panic) only in states where the `handles`
bucket has been removed — reachable solely through the reserved-name call
`DeleteAccount("handles")`, whose final transaction commits the bucket
deletion. -/
def HasHandleGlobal (handle : String) (st : Store) : Bool :=
  if handle = "" then false
  else (alookup ((alookup st.buckets handlesBucketName).getD []) handle).isSome

/-- The four mutating persistence operations, as trace steps. -/
inductive StoreOp where
  | newAccount (now : Nat) (secret target : String)
  | deleteAccount (secret : String)
  | newHandle (now : Nat) (secret handle : String)
  | deleteHandle (secret handle : String)
  deriving DecidableEq

/-- State reached after one persistence operation (errors and panics roll
the enclosing transaction back). -/
def applyStoreOp (st : Store) : StoreOp → Store
  | .newAccount now s t => (NewAccount now s t st).2
  | .deleteAccount s => (DeleteAccount s st).2
  | .newHandle now s h => (NewAccountHandle now s h st).2
  | .deleteHandle s h => (DeleteAccountHandle s h st).2

/-- State after running a sequence of persistence operations from the
freshly opened store. -/
def runOps (ops : List StoreOp) : Store :=
  ops.foldl applyStoreOp initialStore

/-- The handle is owned by the account `s`: `s` is not a static bucket
name and the bucket named `s` contains the handle's key. -/
def ownedIn (st : Store) (s h : String) : Prop :=
  isStaticName s = false ∧
  ∃ b, alookup st.buckets s = some b ∧ (alookup b h).isSome = true

/-- The handle's key is present in the global `handles` bucket. -/
def globalHas (st : Store) (h : String) : Prop :=
  ∃ hb, alookup st.buckets handlesBucketName = some hb ∧ (alookup hb h).isSome = true

/-- Every handle present in any account's bucket is present in the global
`handles` bucket. -/
def nsToGlobal (st : Store) : Prop :=
  ∀ s h, ownedIn st s h → globalHas st h

/-- Every handle present in the global `handles` bucket is present in
some account's bucket. -/
def globalToNs (st : Store) : Prop :=
  ∀ h, globalHas st h → ∃ s, ownedIn st s h

/-- A handle is owned by at most one account. -/
def uniqueOwner (st : Store) : Prop :=
  ∀ s1 s2 h, ownedIn st s1 h → ownedIn st s2 h → s1 = s2

/-- No account bucket and no global-index entry stores a blank handle key
(the store rejects blank keys). -/
def noBlankHandle (st : Store) : Prop :=
  (∀ hb, alookup st.buckets handlesBucketName = some hb → alookup hb ("") = none) ∧
  (∀ s b, isStaticName s = false → alookup st.buckets s = some b → alookup b ("") = none)

/-- The three static buckets are present. -/
def staticOk (st : Store) : Prop :=
  (alookup st.buckets targetsBucketName).isSome = true ∧
  (alookup st.buckets accountsBucketName).isSome = true ∧
  (alookup st.buckets handlesBucketName).isSome = true

/-- Full inductive invariant for the handle-index synchronization. -/
def storeInv (st : Store) : Prop :=
  staticOk st ∧ nsToGlobal st ∧ globalToNs st ∧ uniqueOwner st ∧ noBlankHandle st

/-- Guard for owner-scoped handle deletion: the deleted handle is either
globally absent, or (when a bucket with the calling secret's name exists)
present in that very bucket, i.e. the call goes through the handle's
owner. -/
def ownsOrAbsent (st : Store) (s h : String) : Bool :=
  !(alookup ((alookup st.buckets handlesBucketName).getD []) h).isSome ||
    (match alookup st.buckets s with
     | some b => (alookup b h).isSome
     | none => true)

/-- States reachable from the freshly opened store when delete-account,
create-handle and delete-handle are never invoked with a secret equal to
one of the three reserved bucket names and every delete-handle call is
owner-scoped (`ownsOrAbsent`); create-account is unrestricted (a
reserved-name secret there is a harmless `ErrAccountExists` no-op). -/
inductive ReachableOwn : Store → Prop where
  | init : ReachableOwn initialStore
  | newAccount (now : Nat) (s t : String) {st : Store} :
      ReachableOwn st → ReachableOwn (applyStoreOp st (.newAccount now s t))
  | deleteAccount (s : String) {st : Store} :
      ReachableOwn st → isStaticName s = false →
      ReachableOwn (applyStoreOp st (.deleteAccount s))
  | newHandle (now : Nat) (s h : String) {st : Store} :
      ReachableOwn st → isStaticName s = false →
      ReachableOwn (applyStoreOp st (.newHandle now s h))
  | deleteHandle (s h : String) {st : Store} :
      ReachableOwn st → isStaticName s = false → ownsOrAbsent st s h = true →
      ReachableOwn (applyStoreOp st (.deleteHandle s h))

/-- The postfix map file (`virtual_aliases`): its lines, plus a counter of
`postmap` index rebuilds triggered so far. -/
structure MailMap where
  lines : List String
  rebuilds : Nat
  deriving DecidableEq

/-- `strings.HasPrefix(l, p)`: the second string is a prefix of the
first. -/
def goStartsWith (l p : String) : Bool :=
  p.data.isPrefixOf l.data

/-- The line-copying loop of `PostfixWriter.RemoveHandle`: every line NOT
starting with the handle token is copied to the replacement file, in
order; lines starting with it are dropped. -/
def removeHandleLines (h : String) : List String → List String
  | [] => []
  | line :: rest =>
    if goStartsWith line h then removeHandleLines h rest
    else line :: removeHandleLines h rest

/-- `PostfixWriter.RemoveHandle`: rewrites the map file through a
temporary file atomically renamed over the original, then invokes the
`postmap` index rebuild. -/
def RemoveHandle (h : String) (m : MailMap) : MailMap :=
  ⟨removeHandleLines h m.lines, m.rebuilds + 1⟩

/-- `PostfixWriter.AddHandle`: appends one `<handle><domain> <target>`
line to the map file, invokes the `postmap` index rebuild, and returns
the full externally-visible address. -/
def AddHandle (domain h t : String) (m : MailMap) : String × MailMap :=
  (h ++ domain, ⟨m.lines ++ [h ++ domain ++ (" ") ++ t], m.rebuilds + 1⟩)

/-- The 62-symbol alphabet of `random.go`. -/
def allowedCharacters : String :=
  "abcdefghijklmnopqrstuvwxyzABCDEFGHIJKLMNOPQRSTUVWXYZ0123456789"

/-- `allowedCharactersNum = len(allowedCharacters)`. -/
def allowedCharactersNum : Nat := allowedCharacters.length

/-- `bitsPerIndex = ceil(log2(allowedCharactersNum))`: the minimum number
of bits covering the alphabet size. -/
def bitsPerIndex : Nat := Nat.clog 2 allowedCharactersNum

/-- `indexMask = 1<<bitsPerIndex - 1`. -/
def indexMask : Nat := 2 ^ bitsPerIndex - 1

/-- One output character of `generateRandomString`: the random byte
(`% 256` is the uint8 cast) is masked with `indexMask` and reduced modulo
the alphabet size, and the character at that index is picked. -/
def charForByte (b : Nat) : Char :=
  allowedCharacters.data.getD (Nat.land (b % 256) indexMask % allowedCharactersNum) ('a')

/-- `generateRandomString` from `random.go`: reads `size` bytes from the
secure random source (`none` models a failing source, in which case the
error is returned and no string is produced); byte `i` alone determines
output character `i`. -/
def generateRandomString (size : Nat) (src : Option (Nat → Nat)) : Option String :=
  match src with
  | none => none
  | some randByte =>
    some (String.mk ((List.range size).map (fun i => charForByte (randByte i))))

/-- The typed commands built by `SendCommand` and consumed by
`handleCommands`, with their source tags. -/
inductive Cmd where
  | newHandleCommand (source accountSecret : String)
  | newAccountCommand (source target : String)
  | deleteHandleCommand (source handle secret : String)
  | deleteAccountCommand (source secret : String)
  deriving DecidableEq

/-- What `SendCommand` does with a free-text command: return a local
error without enqueuing, enqueue a typed command (and block until the
actor replies), or — when control falls through the `delete` switch with
an unknown sub-object — enqueue nothing and block forever on the fresh
result/error channels that nothing will ever write to. -/
inductive SendOutcome where
  | localError (e : PError)
  | enqueued (c : Cmd)
  | blockedForever
  deriving DecidableEq

/-- `unicode.IsSpace`, as used by `strings.Fields`: ASCII whitespace
(tab, LF, VT, FF, CR, space), NEL, NBSP, and the Unicode separator
characters (categories Zs, Zl, Zp). -/
def goIsSpace (c : Char) : Bool :=
  c.val = 9 || c.val = 10 || c.val = 11 || c.val = 12 || c.val = 13 || c.val = 32 ||
  c.val = 0x85 || c.val = 0xA0 || c.val = 0x1680 ||
  (0x2000 ≤ c.val && c.val ≤ 0x200A) ||
  c.val = 0x2028 || c.val = 0x2029 || c.val = 0x202F || c.val = 0x205F || c.val = 0x3000

/-- Character-list worker for `goFields`: accumulates the current token
(reversed) and splits at whitespace runs, emitting no empty tokens. -/
def fieldsAux : List Char → List Char → List String
  | [], acc => if acc = [] then [] else [String.mk acc.reverse]
  | c :: cs, acc =>
    if goIsSpace c then
      if acc = [] then fieldsAux cs []
      else String.mk acc.reverse :: fieldsAux cs []
    else fieldsAux cs (c :: acc)

/-- `strings.Fields`: whitespace-separated tokens, no empties. -/
def goFields (s : String) : List String :=
  fieldsAux s.data []

/-- `Server.SendCommand` from `server.go`: tokenizes the free text and
dispatches on the verb and sub-object.  The `new` switch has a default
case returning `ErrWrongCommand`; the `delete` switch has none, so an
unknown sub-object falls through and the final channel receives block
forever. -/
def SendCommand (source args : String) : SendOutcome :=
  match goFields args with
  | [] => .localError .emptyCommand
  | command :: extra =>
    if command = "new" then
      match extra with
      | [e0, e1] =>
        if e0 = "handle" then .enqueued (.newHandleCommand source e1)
        else if e0 = "account" then .enqueued (.newAccountCommand source e1)
        else .localError .wrongCommand
      | _ => .localError .wrongCommand
    else if command = "delete" then
      match extra with
      | [] => .localError .wrongCommand
      | e0 :: rest =>
        if e0 = "handle" then
          match rest with
          | [h, sec] => .enqueued (.deleteHandleCommand source h sec)
          | _ => .localError .wrongCommand
        else if e0 = "account" then
          match rest with
          | [sec] => .enqueued (.deleteAccountCommand source sec)
          | _ => .localError .wrongCommand
        else .blockedForever
    else .localError .unknownCommand

/-- Full server state: the persistence store and the postfix map file. -/
structure Srv where
  store : Store
  mail : MailMap
  deriving DecidableEq

/-- Result of the actor executing one command: a result/error reply pair
with the new server state, a panic, or divergence (the random-handle
retry loop never finding a fresh token within the observed candidates). -/
inductive SrvOut where
  | reply (res : String) (err : Option PError) (s : Srv)
  | panicked (s : Srv)
  | diverged
  deriving DecidableEq

/-- The retry loop of `Server.NewHandle`: first generated candidate that
is not globally used. -/
def firstFreshHandle (st : Store) : List String → Option String
  | [] => none
  | c :: rest => if HasHandleGlobal c st then firstFreshHandle st rest else some c

/-- The retry loop of `Server.NewAccount`: first generated candidate that
is not an existing account secret. -/
def firstFreshSecret (st : Store) : List String → Option String
  | [] => none
  | c :: rest => if HasAccount c st then firstFreshSecret st rest else some c

/-- `Server.NewHandle`: resolves the target, generates a fresh handle,
stores it, then appends it to the map file and returns the full
address. -/
def ServerNewHandle (domain : String) (now : Nat) (cands : List String)
    (accountSecret : String) (s : Srv) : SrvOut :=
  match GetAccountTarget accountSecret s.store with
  | .err e => .reply ("") (some e) s
  | .panicked => .panicked s
  | .ok target =>
    match firstFreshHandle s.store cands with
    | none => .diverged
    | some newHandle =>
      match NewAccountHandle now accountSecret newHandle s.store with
      | (.err e, st1) => .reply ("") (some e) { s with store := st1 }
      | (.panicked, st1) => .panicked { s with store := st1 }
      | (.ok _, st1) =>
        let r := AddHandle domain newHandle target s.mail
        .reply r.1 none { store := st1, mail := r.2 }

/-- `Server.NewAccount`: generates a fresh secret, stores the account,
returns the secret. -/
def ServerNewAccount (now : Nat) (cands : List String) (target : String)
    (s : Srv) : SrvOut :=
  match firstFreshSecret s.store cands with
  | none => .diverged
  | some secret =>
    match NewAccount now secret target s.store with
    | (.err e, st1) => .reply ("") (some e) { s with store := st1 }
    | (.panicked, st1) => .panicked { s with store := st1 }
    | (.ok _, st1) => .reply secret none { s with store := st1 }

/-- `Server.DeleteHandle`: requires the account to exist, then deletes
the handle from persistence (the source ignores its outcome, but a panic
there propagates) and from the map file (its error is discarded by the
source), and returns no error. -/
def ServerDeleteHandle (secret handle : String) (s : Srv) : POut Unit × Srv :=
  if HasAccount secret s.store then
    match DeleteAccountHandle secret handle s.store with
    | (.panicked, st1) => (.panicked, ⟨st1, s.mail⟩)
    | (_, st1) => (.ok (), ⟨st1, RemoveHandle handle s.mail⟩)
  else
    (.err .accountNotFound, s)

/-- `Server.DeleteAccount`: requires the account to exist, removes each of
its handles from the map file, then deletes the account from
persistence. -/
def ServerDeleteAccount (secret : String) (s : Srv) : POut Unit × Srv :=
  if HasAccount secret s.store then
    match ListAccountHandles secret s.store with
    | .err e => (.err e, s)
    | .panicked => (.panicked, s)
    | .ok hs =>
      let m1 := hs.foldl (fun mm h => RemoveHandle h mm) s.mail
      match DeleteAccount secret s.store with
      | (.panicked, st1) => (.panicked, ⟨st1, m1⟩)
      | (_, st1) => (.ok (), ⟨st1, m1⟩)
  else
    (.err .accountNotFound, s)

/-- `Server.ListHandles`: requires the account to exist, then lists its
handles. -/
def ServerListHandles (secret : String) (st : Store) : POut (List String) :=
  if HasAccount secret st then ListAccountHandles secret st
  else .err .accountNotFound

/-- One iteration of `handleCommands`: executes one dequeued command and
produces its reply.  `new account`, `delete handle` and `delete account`
from the `"websocket"` source are rejected with `ErrInvalidPermission`
before touching persistence or the map file; `new handle` has no source
check. -/
def execCommand (domain : String) (now : Nat) (cands : List String)
    (c : Cmd) (s : Srv) : SrvOut :=
  match c with
  | .newHandleCommand _ accountSecret =>
    ServerNewHandle domain now cands accountSecret s
  | .newAccountCommand source target =>
    if source = "websocket" then .reply ("") (some .invalidPermission) s
    else ServerNewAccount now cands target s
  | .deleteHandleCommand source handle secret =>
    if source = "websocket" then .reply ("") (some .invalidPermission) s
    else
      match ServerDeleteHandle secret handle s with
      | (.ok _, s1) => .reply ("success") none s1
      | (.err e, s1) => .reply ("") (some e) s1
      | (.panicked, s1) => .panicked s1
  | .deleteAccountCommand source secret =>
    if source = "websocket" then .reply ("") (some .invalidPermission) s
    else
      match ServerDeleteAccount secret s with
      | (.ok _, s1) => .reply ("success") none s1
      | (.err e, s1) => .reply ("") (some e) s1
      | (.panicked, s1) => .panicked s1

/-- The error component of an actor reply. -/
def outErr : SrvOut → Option PError
  | .reply _ e _ => e
  | .panicked _ => none
  | .diverged => none

/-!  Association-list lemmas.  -/

theorem alookup_aerase_self {β : Type} (l : List (String × β)) (k : String) :
    alookup (aerase l k) k = none := by
  induction l with
  | nil => rfl
  | cons p rest ih =>
    by_cases h : p.1 = k
    · simp [aerase, h, ih]
    · simp [aerase, alookup, h, ih]

theorem alookup_aerase_ne {β : Type} (l : List (String × β)) (k k' : String)
    (h : k' ≠ k) : alookup (aerase l k) k' = alookup l k' := by
  induction l with
  | nil => rfl
  | cons p rest ih =>
    by_cases hp : p.1 = k
    · have hne : ¬ (k = k') := fun hc => h hc.symm
      simp [aerase, alookup, hp, hne, ih]
    · by_cases hp' : p.1 = k'
      · simp [aerase, alookup, hp, hp', h]
      · simp [aerase, alookup, hp, hp', ih]

theorem alookup_aset_self {β : Type} (l : List (String × β)) (k : String) (v : β) :
    alookup (aset l k v) k = some v := by
  simp [aset, alookup]

theorem alookup_aset_ne {β : Type} (l : List (String × β)) (k k' : String) (v : β)
    (h : k' ≠ k) : alookup (aset l k v) k' = alookup l k' := by
  have : k ≠ k' := fun hc => h hc.symm
  simp [aset, alookup, this, alookup_aerase_ne l k k' h]

theorem alookup_some_mem {β : Type} {l : List (String × β)} {k : String} {v : β}
    (h : alookup l k = some v) : (k, v) ∈ l := by
  induction l with
  | nil => simp [alookup] at h
  | cons p rest ih =>
    by_cases hp : p.1 = k
    · simp [alookup, hp] at h
      have hpk : p = (k, v) := by
        cases p
        simp_all
      rw [← hpk]
      exact List.mem_cons_self _ _
    · simp [alookup, hp] at h
      exact List.mem_cons_of_mem _ (ih h)

theorem alookup_isSome_of_mem {β : Type} {l : List (String × β)} {k : String} {v : β}
    (h : (k, v) ∈ l) : (alookup l k).isSome = true := by
  induction l with
  | nil => simp at h
  | cons p rest ih =>
    rcases List.mem_cons.mp h with h1 | h2
    · simp [alookup, ← h1]
    · by_cases hp : p.1 = k
      · simp [alookup, hp]
      · simp [alookup, hp, ih h2]

theorem alookup_isSome_of_mem_keys {β : Type} {l : List (String × β)} {k : String}
    (h : k ∈ l.map Prod.fst) : (alookup l k).isSome = true := by
  rcases List.mem_map.mp h with ⟨p, hp, hk⟩
  have : (k, p.2) ∈ l := by
    have : p = (k, p.2) := by
      cases p
      simp_all
    rw [← this]
    exact hp
  exact alookup_isSome_of_mem this

theorem mem_keys_of_alookup_isSome {β : Type} {l : List (String × β)} {k : String}
    (h : (alookup l k).isSome = true) : k ∈ l.map Prod.fst := by
  rcases Option.isSome_iff_exists.mp h with ⟨v, hv⟩
  exact List.mem_map.mpr ⟨(k, v), alookup_some_mem hv, rfl⟩

theorem mem_of_mem_aerase {β : Type} {l : List (String × β)} {k : String}
    {p : String × β} (h : p ∈ aerase l k) : p ∈ l := by
  induction l with
  | nil => simp [aerase] at h
  | cons q rest ih =>
    by_cases hq : q.1 = k
    · simp [aerase, hq] at h
      exact List.mem_cons_of_mem _ (ih h)
    · simp [aerase, hq] at h
      rcases h with h1 | h2
      · simp [h1]
      · exact List.mem_cons_of_mem _ (ih h2)

theorem alookup_aerase_isSome {β : Type} {l : List (String × β)} {k k' : String}
    (h : (alookup (aerase l k) k').isSome = true) :
    k' ≠ k ∧ (alookup l k').isSome = true := by
  by_cases hk : k' = k
  · rw [hk, alookup_aerase_self] at h
    simp at h
  · rw [alookup_aerase_ne l k k' hk] at h
    exact ⟨hk, h⟩

theorem alookup_foldl_aerase_isSome (ks : List String) :
    ∀ (bc : List (String × String)) (k : String),
      (alookup (ks.foldl (fun bb k' => aerase bb k') bc) k).isSome = true →
      (alookup bc k).isSome = true ∧ k ∉ ks := by
  induction ks with
  | nil =>
    intro bc k h
    simp only [List.foldl_nil] at h
    exact ⟨h, by simp⟩
  | cons k1 ks ih =>
    intro bc k h
    simp only [List.foldl_cons] at h
    obtain ⟨h1, h2⟩ := ih _ _ h
    obtain ⟨hne, h3⟩ := alookup_aerase_isSome h1
    refine ⟨h3, ?_⟩
    intro hmem
    rcases List.mem_cons.mp hmem with he | he
    · exact hne he
    · exact h2 he

/-!  Static bucket-name facts.  -/

theorem tb_ne_ab : targetsBucketName ≠ accountsBucketName := by decide

theorem tb_ne_hb : targetsBucketName ≠ handlesBucketName := by decide

theorem ab_ne_hb : accountsBucketName ≠ handlesBucketName := by decide

theorem not_static_iff {s : String} :
    isStaticName s = false ↔
      s ≠ targetsBucketName ∧ s ≠ accountsBucketName ∧ s ≠ handlesBucketName := by
  unfold isStaticName
  simp [not_or, and_assoc]

theorem not_static_of_staticOk_none {st : Store} {s : String} (hso : staticOk st)
    (h : alookup st.buckets s = none) : isStaticName s = false := by
  obtain ⟨h1, h2, h3⟩ := hso
  rw [not_static_iff]
  refine ⟨?_, ?_, ?_⟩
  · intro he
    rw [he] at h
    rw [h] at h1
    simp at h1
  · intro he
    rw [he] at h
    rw [h] at h2
    simp at h2
  · intro he
    rw [he] at h
    rw [h] at h3
    simp at h3

theorem initial_lookup_cases {s : String} {b : List (String × String)}
    (h : alookup initialStore.buckets s = some b) :
    isStaticName s = true ∧ b = [] := by
  have hred : initialStore.buckets = [(targetsBucketName, []), (accountsBucketName, []),
      (handlesBucketName, [])] := rfl
  rw [hred] at h
  simp only [alookup] at h
  by_cases h1 : targetsBucketName = s
  · rw [if_pos h1] at h
    refine ⟨by simp [isStaticName, ← h1], (Option.some.inj h).symm⟩
  · rw [if_neg h1] at h
    by_cases h2 : accountsBucketName = s
    · rw [if_pos h2] at h
      refine ⟨by simp [isStaticName, ← h2], (Option.some.inj h).symm⟩
    · rw [if_neg h2] at h
      by_cases h3 : handlesBucketName = s
      · rw [if_pos h3] at h
        refine ⟨by simp [isStaticName, ← h3], (Option.some.inj h).symm⟩
      · rw [if_neg h3] at h
        cases h

/-!  Invariant preservation for the persistence operations.  -/

theorem storeInv_initial : storeInv initialStore := by
  refine ⟨⟨by decide, by decide, by decide⟩, ?_, ?_, ?_, ?_, ?_⟩
  · intro s h hown
    obtain ⟨hns, b, hb, hmem⟩ := hown
    obtain ⟨hstat, _⟩ := initial_lookup_cases hb
    rw [hstat] at hns
    cases hns
  · intro h hg
    obtain ⟨hbk, hhbk, hmk⟩ := hg
    obtain ⟨_, hbe⟩ := initial_lookup_cases hhbk
    subst hbe
    simp [alookup] at hmk
  · intro s1 s2 h h1 h2
    obtain ⟨hns, b, hb, _⟩ := h1
    obtain ⟨hstat, _⟩ := initial_lookup_cases hb
    rw [hstat] at hns
    cases hns
  · intro hb hhb
    obtain ⟨_, hbe⟩ := initial_lookup_cases hhb
    subst hbe
    rfl
  · intro s b hns hb
    obtain ⟨hstat, _⟩ := initial_lookup_cases hb
    rw [hstat] at hns
    cases hns

theorem storeInv_newAccount (now : Nat) (s t : String) {st : Store}
    (inv : storeInv st) : storeInv (NewAccount now s t st).2 := by
  obtain ⟨iS, iA, iB, iC, iD1, iD2⟩ := inv
  unfold NewAccount
  by_cases hs : s = ""
  · simpa [hs] using ⟨iS, iA, iB, iC, iD1, iD2⟩
  · by_cases ht : t = ""
    · simpa [hs, ht] using ⟨iS, iA, iB, iC, iD1, iD2⟩
    · cases hlk : alookup st.buckets s with
      | some b => simpa [hs, ht, hlk] using ⟨iS, iA, iB, iC, iD1, iD2⟩
      | none =>
        obtain ⟨hnt, hna, hnh⟩ := not_static_iff.mp (not_static_of_staticOk_none iS hlk)
        obtain ⟨tb, htb⟩ := Option.isSome_iff_exists.mp iS.1
        obtain ⟨ab, hab⟩ := Option.isSome_iff_exists.mp iS.2.1
        have htb1 : alookup (aset st.buckets s ([] : List (String × String)))
            targetsBucketName = some tb := by
          rw [alookup_aset_ne _ _ _ _ (fun he => hnt he.symm)]
          exact htb
        have hab1 : alookup (aset (aset st.buckets s []) targetsBucketName (aset tb s t))
            accountsBucketName = some ab := by
          rw [alookup_aset_ne _ _ _ _ (Ne.symm tb_ne_ab),
            alookup_aset_ne _ _ _ _ (fun he => hna he.symm)]
          exact hab
        have hT : alookup (aset (aset (aset st.buckets s []) targetsBucketName (aset tb s t))
            accountsBucketName (aset ab s (gobTime now))) targetsBucketName =
            some (aset tb s t) := by
          rw [alookup_aset_ne _ _ _ _ tb_ne_ab, alookup_aset_self]
        have hA : alookup (aset (aset (aset st.buckets s []) targetsBucketName (aset tb s t))
            accountsBucketName (aset ab s (gobTime now))) accountsBucketName =
            some (aset ab s (gobTime now)) := alookup_aset_self _ _ _
        have hH : alookup (aset (aset (aset st.buckets s []) targetsBucketName (aset tb s t))
            accountsBucketName (aset ab s (gobTime now))) handlesBucketName =
            alookup st.buckets handlesBucketName := by
          rw [alookup_aset_ne _ _ _ _ (Ne.symm ab_ne_hb),
            alookup_aset_ne _ _ _ _ (Ne.symm tb_ne_hb),
            alookup_aset_ne _ _ _ _ (fun he => hnh he.symm)]
        have hS : alookup (aset (aset (aset st.buckets s []) targetsBucketName (aset tb s t))
            accountsBucketName (aset ab s (gobTime now))) s = some [] := by
          rw [alookup_aset_ne _ _ _ _ hna, alookup_aset_ne _ _ _ _ hnt, alookup_aset_self]
        have hO : ∀ n, n ≠ s → n ≠ targetsBucketName → n ≠ accountsBucketName →
            alookup (aset (aset (aset st.buckets s []) targetsBucketName (aset tb s t))
              accountsBucketName (aset ab s (gobTime now))) n = alookup st.buckets n := by
          intro n h1 h2 h3
          rw [alookup_aset_ne _ _ _ _ h3, alookup_aset_ne _ _ _ _ h2,
            alookup_aset_ne _ _ _ _ h1]
        simp only [if_neg hs, if_neg ht, hlk, htb1, hab1]
        refine ⟨⟨by rw [hT]; rfl, by rw [hA]; rfl, by rw [hH]; exact iS.2.2⟩, ?_, ?_, ?_, ?_, ?_⟩
        · intro s2 h hown
          obtain ⟨hns2, b2, hb2, hm2⟩ := hown
          obtain ⟨hn1, hn2, hn3⟩ := not_static_iff.mp hns2
          by_cases hss : s2 = s
          · subst hss
            rw [hS] at hb2
            cases hb2
            simp [alookup] at hm2
          · rw [hO s2 hss hn1 hn2] at hb2
            obtain ⟨hbk, hhbk, hmk⟩ := iA s2 h ⟨hns2, b2, hb2, hm2⟩
            exact ⟨hbk, by rw [hH]; exact hhbk, hmk⟩
        · intro h hg
          obtain ⟨hbk, hhbk, hmk⟩ := hg
          rw [hH] at hhbk
          obtain ⟨s0, hns0, b0, hb0, hm0⟩ := iB h ⟨hbk, hhbk, hmk⟩
          obtain ⟨hn1, hn2, hn3⟩ := not_static_iff.mp hns0
          have hs0 : s0 ≠ s := by
            intro he
            rw [he, hlk] at hb0
            cases hb0
          exact ⟨s0, hns0, b0, by rw [hO s0 hs0 hn1 hn2]; exact hb0, hm0⟩
        · intro s1 s2 h h1 h2
          have htr : ∀ s3, ownedIn ⟨aset (aset (aset st.buckets s []) targetsBucketName
              (aset tb s t)) accountsBucketName (aset ab s (gobTime now))⟩ s3 h →
              ownedIn st s3 h := by
            intro s3 ⟨hns3, b3, hb3, hm3⟩
            obtain ⟨hn1, hn2, hn3⟩ := not_static_iff.mp hns3
            by_cases hss : s3 = s
            · subst hss
              rw [hS] at hb3
              cases hb3
              simp [alookup] at hm3
            · rw [hO s3 hss hn1 hn2] at hb3
              exact ⟨hns3, b3, hb3, hm3⟩
          exact iC s1 s2 h (htr s1 h1) (htr s2 h2)
        · intro hbk hhbk
          rw [hH] at hhbk
          exact iD1 hbk hhbk
        · intro s2 b2 hns2 hb2
          obtain ⟨hn1, hn2, hn3⟩ := not_static_iff.mp hns2
          by_cases hss : s2 = s
          · subst hss
            rw [hS] at hb2
            cases hb2
            rfl
          · rw [hO s2 hss hn1 hn2] at hb2
            exact iD2 s2 b2 hns2 hb2

theorem storeInv_newHandle (now : Nat) (s h0 : String) {st : Store}
    (hsns : isStaticName s = false) (inv : storeInv st) :
    storeInv (NewAccountHandle now s h0 st).2 := by
  obtain ⟨iS, iA, iB, iC, iD1, iD2⟩ := inv
  obtain ⟨hnt, hna, hnh⟩ := not_static_iff.mp hsns
  unfold NewAccountHandle
  by_cases hs : s = ""
  · simpa [hs] using ⟨iS, iA, iB, iC, iD1, iD2⟩
  · cases hlk : alookup st.buckets s with
    | none => simpa [hs, hlk] using ⟨iS, iA, iB, iC, iD1, iD2⟩
    | some b =>
      cases hhb : alookup st.buckets handlesBucketName with
      | none => simpa [hs, hlk, hhb] using ⟨iS, iA, iB, iC, iD1, iD2⟩
      | some hb =>
        cases hfr : alookup hb h0 with
        | some v => simpa [hs, hlk, hhb, hfr] using ⟨iS, iA, iB, iC, iD1, iD2⟩
        | none =>
          by_cases hh0 : h0 = ""
          · subst hh0
            simpa [hs, hlk, hhb, hfr] using ⟨iS, iA, iB, iC, iD1, iD2⟩
          · have hhb1 : alookup (aset st.buckets s (aset b h0 (gobTime now)))
                handlesBucketName = some hb := by
              rw [alookup_aset_ne _ _ _ _ (fun he => hnh he.symm)]
              exact hhb
            have hFh : alookup (aset (aset st.buckets s (aset b h0 (gobTime now)))
                handlesBucketName (aset hb h0 (gobTime now))) handlesBucketName =
                some (aset hb h0 (gobTime now)) := alookup_aset_self _ _ _
            have hFs : alookup (aset (aset st.buckets s (aset b h0 (gobTime now)))
                handlesBucketName (aset hb h0 (gobTime now))) s =
                some (aset b h0 (gobTime now)) := by
              rw [alookup_aset_ne _ _ _ _ hnh, alookup_aset_self]
            have hFo : ∀ n, n ≠ s → n ≠ handlesBucketName →
                alookup (aset (aset st.buckets s (aset b h0 (gobTime now)))
                  handlesBucketName (aset hb h0 (gobTime now))) n =
                alookup st.buckets n := by
              intro n h1 h2
              rw [alookup_aset_ne _ _ _ _ h2, alookup_aset_ne _ _ _ _ h1]
            have hne0 : ("" : String) ≠ h0 := fun he => hh0 he.symm
            simp only [if_neg hs, hlk, hhb, hfr, if_neg hh0, hhb1]
            refine ⟨⟨?_, ?_, by rw [hFh]; rfl⟩, ?_, ?_, ?_, ?_, ?_⟩
            · rw [hFo targetsBucketName (fun he => hnt he.symm) tb_ne_hb]
              exact iS.1
            · rw [hFo accountsBucketName (fun he => hna he.symm) ab_ne_hb]
              exact iS.2.1
            · intro s2 h hown
              obtain ⟨hns2, b2, hb2, hm2⟩ := hown
              obtain ⟨hn1, hn2, hn3⟩ := not_static_iff.mp hns2
              by_cases hss : s2 = s
              · subst hss
                rw [hFs] at hb2
                cases hb2
                by_cases hhh : h = h0
                · subst hhh
                  refine ⟨aset hb h (gobTime now), hFh, ?_⟩
                  rw [alookup_aset_self]
                  rfl
                · rw [alookup_aset_ne _ _ _ _ hhh] at hm2
                  obtain ⟨hbk, hhbk, hmk⟩ := iA s2 h ⟨hns2, b, hlk, hm2⟩
                  rw [hhb] at hhbk
                  cases hhbk
                  refine ⟨aset hb h0 (gobTime now), hFh, ?_⟩
                  rw [alookup_aset_ne _ _ _ _ hhh]
                  exact hmk
              · rw [hFo s2 hss hn3] at hb2
                obtain ⟨hbk, hhbk, hmk⟩ := iA s2 h ⟨hns2, b2, hb2, hm2⟩
                rw [hhb] at hhbk
                cases hhbk
                by_cases hhh : h = h0
                · subst hhh
                  rw [hfr] at hmk
                  cases hmk
                · refine ⟨aset hb h0 (gobTime now), hFh, ?_⟩
                  rw [alookup_aset_ne _ _ _ _ hhh]
                  exact hmk
            · intro h hg
              obtain ⟨hbk, hhbk2, hmk⟩ := hg
              rw [hFh] at hhbk2
              cases hhbk2
              by_cases hhh : h = h0
              · subst hhh
                refine ⟨s, hsns, aset b h (gobTime now), hFs, ?_⟩
                rw [alookup_aset_self]
                rfl
              · rw [alookup_aset_ne _ _ _ _ hhh] at hmk
                obtain ⟨s0, hns0, b0, hb0, hm0⟩ := iB h ⟨hb, hhb, hmk⟩
                obtain ⟨hm1, hm2, hm3⟩ := not_static_iff.mp hns0
                by_cases hs0 : s0 = s
                · subst hs0
                  rw [hlk] at hb0
                  cases hb0
                  refine ⟨s0, hns0, aset b h0 (gobTime now), hFs, ?_⟩
                  rw [alookup_aset_ne _ _ _ _ hhh]
                  exact hm0
                · exact ⟨s0, hns0, b0, by rw [hFo s0 hs0 hm3]; exact hb0, hm0⟩
            · intro s1 s2 h h1 h2
              by_cases hhh : h = h0
              · subst hhh
                have howner : ∀ s3, ownedIn ⟨aset (aset st.buckets s (aset b h (gobTime now)))
                    handlesBucketName (aset hb h (gobTime now))⟩ s3 h → s3 = s := by
                  intro s3 ⟨hns3, b3, hb3, hm3⟩
                  obtain ⟨hm1, hm2, hm3x⟩ := not_static_iff.mp hns3
                  by_cases hs3 : s3 = s
                  · exact hs3
                  · rw [hFo s3 hs3 hm3x] at hb3
                    obtain ⟨hbk, hhbk, hmk⟩ := iA s3 h ⟨hns3, b3, hb3, hm3⟩
                    rw [hhb] at hhbk
                    cases hhbk
                    rw [hfr] at hmk
                    cases hmk
                rw [howner s1 h1, howner s2 h2]
              · have htr : ∀ s3, ownedIn ⟨aset (aset st.buckets s (aset b h0 (gobTime now)))
                    handlesBucketName (aset hb h0 (gobTime now))⟩ s3 h →
                    ownedIn st s3 h := by
                  intro s3 ⟨hns3, b3, hb3, hm3⟩
                  obtain ⟨hm1, hm2, hm3x⟩ := not_static_iff.mp hns3
                  by_cases hs3 : s3 = s
                  · subst hs3
                    rw [hFs] at hb3
                    cases hb3
                    rw [alookup_aset_ne _ _ _ _ hhh] at hm3
                    exact ⟨hns3, b, hlk, hm3⟩
                  · rw [hFo s3 hs3 hm3x] at hb3
                    exact ⟨hns3, b3, hb3, hm3⟩
                exact iC s1 s2 h (htr s1 h1) (htr s2 h2)
            · intro hbk hhbk2
              rw [hFh] at hhbk2
              cases hhbk2
              rw [alookup_aset_ne _ _ _ _ hne0]
              exact iD1 hb hhb
            · intro s2 b2 hns2 hb2
              obtain ⟨hn1, hn2, hn3⟩ := not_static_iff.mp hns2
              by_cases hss : s2 = s
              · subst hss
                rw [hFs] at hb2
                cases hb2
                rw [alookup_aset_ne _ _ _ _ hne0]
                exact iD2 s2 b hns2 hlk
              · rw [hFo s2 hss hn3] at hb2
                exact iD2 s2 b2 hns2 hb2

theorem storeInv_deleteHandle_step (secret k : String) {st0 stc : Store}
    (hsns : isStaticName secret = false)
    (inv0 : storeInv st0) (inv : storeInv stc)
    (hother : ∀ s2, s2 ≠ secret → isStaticName s2 = false →
      alookup stc.buckets s2 = alookup st0.buckets s2)
    (hcond : ∀ hbx, alookup stc.buckets handlesBucketName = some hbx →
      (alookup hbx k).isSome = true →
      ∀ b2, alookup stc.buckets secret = some b2 → ownedIn st0 secret k) :
    storeInv (DeleteAccountHandle secret k stc).2 ∧
      (∀ s2, s2 ≠ secret → isStaticName s2 = false →
        alookup (DeleteAccountHandle secret k stc).2.buckets s2 =
          alookup st0.buckets s2) := by
  obtain ⟨iS, iA, iB, iC, iD1, iD2⟩ := inv
  obtain ⟨hnt, hna, hnh⟩ := not_static_iff.mp hsns
  unfold DeleteAccountHandle
  by_cases hge : secret = "" ∨ k = ""
  · simpa [hge] using ⟨⟨iS, iA, iB, iC, iD1, iD2⟩, hother⟩
  · obtain ⟨hse, hke⟩ := not_or.mp hge
    cases hlk : alookup stc.buckets secret with
    | none => simpa [hge, hlk] using ⟨⟨iS, iA, iB, iC, iD1, iD2⟩, hother⟩
    | some b =>
      have haux : alookup (aset stc.buckets secret (aerase b k)) handlesBucketName =
          alookup stc.buckets handlesBucketName :=
        alookup_aset_ne _ _ _ _ (fun he => hnh he.symm)
      cases hhb : alookup stc.buckets handlesBucketName with
      | none =>
        simpa [hge, hlk, haux, hhb] using ⟨⟨iS, iA, iB, iC, iD1, iD2⟩, hother⟩
      | some hb =>
        have hFh : alookup (aset (aset stc.buckets secret (aerase b k)) handlesBucketName
            (aerase hb k)) handlesBucketName = some (aerase hb k) := alookup_aset_self _ _ _
        have hFs : alookup (aset (aset stc.buckets secret (aerase b k)) handlesBucketName
            (aerase hb k)) secret = some (aerase b k) := by
          rw [alookup_aset_ne _ _ _ _ hnh, alookup_aset_self]
        have hFo : ∀ n, n ≠ secret → n ≠ handlesBucketName →
            alookup (aset (aset stc.buckets secret (aerase b k)) handlesBucketName
              (aerase hb k)) n = alookup stc.buckets n := by
          intro n h1 h2
          rw [alookup_aset_ne _ _ _ _ h2, alookup_aset_ne _ _ _ _ h1]
        have hek : ("" : String) ≠ k := fun he => hke he.symm
        simp only [if_neg hge, hlk, haux, hhb]
        constructor
        · refine ⟨⟨?_, ?_, by rw [hFh]; rfl⟩, ?_, ?_, ?_, ?_, ?_⟩
          · rw [hFo targetsBucketName (fun he => hnt he.symm) tb_ne_hb]
            exact iS.1
          · rw [hFo accountsBucketName (fun he => hna he.symm) ab_ne_hb]
            exact iS.2.1
          · intro s2 h hown
            obtain ⟨hns2, b2, hb2, hm2⟩ := hown
            obtain ⟨hn1, hn2, hn3⟩ := not_static_iff.mp hns2
            by_cases hss : s2 = secret
            · subst hss
              rw [hFs] at hb2
              cases hb2
              obtain ⟨hk, hm⟩ := alookup_aerase_isSome hm2
              obtain ⟨hbk, hhbk, hmk⟩ := iA s2 h ⟨hns2, b, hlk, hm⟩
              rw [hhb] at hhbk
              cases hhbk
              refine ⟨aerase hb k, hFh, ?_⟩
              rw [alookup_aerase_ne _ _ _ hk]
              exact hmk
            · rw [hFo s2 hss hn3] at hb2
              by_cases hhk : h = k
              · subst hhk
                obtain ⟨hbk, hhbk, hmk⟩ := iA s2 h ⟨hns2, b2, hb2, hm2⟩
                rw [hhb] at hhbk
                cases hhbk
                have hown0 : ownedIn st0 secret h := hcond hb hhb hmk b hlk
                have hown2 : ownedIn st0 s2 h := by
                  rw [hother s2 hss hns2] at hb2
                  exact ⟨hns2, b2, hb2, hm2⟩
                obtain ⟨_, _, _, jC, _⟩ := inv0
                exact absurd (jC s2 secret h hown2 hown0) hss
              · obtain ⟨hbk, hhbk, hmk⟩ := iA s2 h ⟨hns2, b2, hb2, hm2⟩
                rw [hhb] at hhbk
                cases hhbk
                refine ⟨aerase hb k, hFh, ?_⟩
                rw [alookup_aerase_ne _ _ _ hhk]
                exact hmk
          · intro h hg
            obtain ⟨hbk, hhbk2, hmk⟩ := hg
            rw [hFh] at hhbk2
            cases hhbk2
            obtain ⟨hhk, hm⟩ := alookup_aerase_isSome hmk
            obtain ⟨s0, hns0, b0, hb0, hm0⟩ := iB h ⟨hb, hhb, hm⟩
            obtain ⟨hm1, hm2, hm3⟩ := not_static_iff.mp hns0
            by_cases hs0 : s0 = secret
            · subst hs0
              rw [hlk] at hb0
              cases hb0
              refine ⟨s0, hns0, aerase b k, hFs, ?_⟩
              rw [alookup_aerase_ne _ _ _ hhk]
              exact hm0
            · exact ⟨s0, hns0, b0, by rw [hFo s0 hs0 hm3]; exact hb0, hm0⟩
          · intro s1 s2 h h1 h2
            have htr : ∀ s3, ownedIn ⟨aset (aset stc.buckets secret (aerase b k))
                handlesBucketName (aerase hb k)⟩ s3 h → ownedIn stc s3 h := by
              intro s3 ⟨hns3, b3, hb3, hm3⟩
              obtain ⟨hq1, hq2, hq3⟩ := not_static_iff.mp hns3
              by_cases hs3 : s3 = secret
              · subst hs3
                rw [hFs] at hb3
                cases hb3
                obtain ⟨_, hm⟩ := alookup_aerase_isSome hm3
                exact ⟨hns3, b, hlk, hm⟩
              · rw [hFo s3 hs3 hq3] at hb3
                exact ⟨hns3, b3, hb3, hm3⟩
            exact iC s1 s2 h (htr s1 h1) (htr s2 h2)
          · intro hbk hhbk2
            rw [hFh] at hhbk2
            cases hhbk2
            rw [alookup_aerase_ne _ _ _ hek]
            exact iD1 hb hhb
          · intro s2 b2 hns2 hb2
            obtain ⟨hn1, hn2, hn3⟩ := not_static_iff.mp hns2
            by_cases hss : s2 = secret
            · subst hss
              rw [hFs] at hb2
              cases hb2
              rw [alookup_aerase_ne _ _ _ hek]
              exact iD2 s2 b hns2 hlk
            · rw [hFo s2 hss hn3] at hb2
              exact iD2 s2 b2 hns2 hb2
        · intro s2 hss hns2
          obtain ⟨hn1, hn2, hn3⟩ := not_static_iff.mp hns2
          rw [hFo s2 hss hn3]
          exact hother s2 hss hns2

theorem storeInv_loop (secret : String) {st0 : Store}
    (hsns : isStaticName secret = false) (inv0 : storeInv st0) (ks : List String) :
    ∀ stc : Store, storeInv stc →
      (∀ s2, s2 ≠ secret → isStaticName s2 = false →
        alookup stc.buckets s2 = alookup st0.buckets s2) →
      (∀ k, k ∈ ks → ownedIn st0 secret k) →
      storeInv (deleteHandlesLoop secret ks stc).2 ∧
        (∀ s2, s2 ≠ secret → isStaticName s2 = false →
          alookup (deleteHandlesLoop secret ks stc).2.buckets s2 =
            alookup st0.buckets s2) := by
  induction ks with
  | nil =>
    intro stc hinv hoth _
    exact ⟨hinv, hoth⟩
  | cons k ks ih =>
    intro stc hinv hoth hks
    have step := storeInv_deleteHandle_step secret k hsns inv0 hinv hoth
      (fun _ _ _ _ _ => hks k (List.mem_cons_self _ _))
    rcases hd : DeleteAccountHandle secret k stc with ⟨out, st1⟩
    rw [hd] at step
    cases out with
    | panicked =>
      simp only [deleteHandlesLoop, hd]
      exact step
    | ok u =>
      simp only [deleteHandlesLoop, hd]
      exact ih st1 step.1 step.2 (fun k2 hk2 => hks k2 (List.mem_cons_of_mem _ hk2))
    | err e =>
      simp only [deleteHandlesLoop, hd]
      exact ih st1 step.1 step.2 (fun k2 hk2 => hks k2 (List.mem_cons_of_mem _ hk2))

theorem loop_bucket (secret : String) (hnh : secret ≠ handlesBucketName)
    (ks : List String) :
    ∀ (stc : Store) (bc hbc0 : List (String × String)),
      secret ≠ "" → (∀ k, k ∈ ks → k ≠ "") →
      alookup stc.buckets secret = some bc →
      alookup stc.buckets handlesBucketName = some hbc0 →
      (deleteHandlesLoop secret ks stc).1 = .ok () ∧
        alookup (deleteHandlesLoop secret ks stc).2.buckets secret =
          some (ks.foldl (fun bb k => aerase bb k) bc) ∧
        (alookup (deleteHandlesLoop secret ks stc).2.buckets handlesBucketName).isSome
          = true := by
  induction ks with
  | nil =>
    intro stc bc hbc0 _ _ hbc hhbc
    exact ⟨rfl, by simpa [deleteHandlesLoop] using hbc,
      by simp [deleteHandlesLoop, hhbc]⟩
  | cons k ks ih =>
    intro stc bc hbc0 hse hkne hbc hhbc
    have hkne1 : k ≠ "" := hkne k (List.mem_cons_self _ _)
    have hge : ¬ (secret = "" ∨ k = "") := by simp [hse, hkne1]
    have haux : alookup (aset stc.buckets secret (aerase bc k)) handlesBucketName =
        some hbc0 := by
      rw [alookup_aset_ne _ _ _ _ (fun he => hnh he.symm)]
      exact hhbc
    have hred : DeleteAccountHandle secret k stc =
        (.ok (), ⟨aset (aset stc.buckets secret (aerase bc k)) handlesBucketName
          (aerase hbc0 k)⟩) := by
      unfold DeleteAccountHandle
      simp only [if_neg hge, hbc, haux]
    simp only [deleteHandlesLoop, hred, List.foldl_cons]
    refine ih _ (aerase bc k) (aerase hbc0 k) hse
      (fun k2 hk2 => hkne k2 (List.mem_cons_of_mem _ hk2)) ?_ ?_
    · rw [alookup_aset_ne _ _ _ _ hnh, alookup_aset_self]
    · exact alookup_aset_self _ _ _

theorem storeInv_deleteAccount (secret : String) {st : Store}
    (hsns : isStaticName secret = false) (inv : storeInv st) :
    storeInv (DeleteAccount secret st).2 := by
  obtain ⟨iS, iA, iB, iC, iD1, iD2⟩ := inv
  obtain ⟨hnt, hna, hnh⟩ := not_static_iff.mp hsns
  by_cases hs : secret = ""
  · unfold DeleteAccount
    simpa [hs] using ⟨iS, iA, iB, iC, iD1, iD2⟩
  · cases hlk : alookup st.buckets secret with
    | none =>
      unfold DeleteAccount ListAccountHandles
      simpa [hs, hlk] using ⟨iS, iA, iB, iC, iD1, iD2⟩
    | some b =>
      have hlist : ListAccountHandles secret st = .ok (b.map Prod.fst) := by
        unfold ListAccountHandles
        simp [hs, hlk]
      obtain ⟨hb0, hhb0⟩ := Option.isSome_iff_exists.mp iS.2.2
      have hown : ∀ k, k ∈ b.map Prod.fst → ownedIn st secret k := fun k hk =>
        ⟨hsns, b, hlk, alookup_isSome_of_mem_keys hk⟩
      have hkne : ∀ k, k ∈ b.map Prod.fst → k ≠ "" := by
        intro k hk hke
        subst hke
        have hsome := alookup_isSome_of_mem_keys hk
        rw [iD2 secret b hsns hlk] at hsome
        cases hsome
      obtain ⟨hlok, hlbkt, hlhdl⟩ :=
        loop_bucket secret hnh (b.map Prod.fst) st b hb0 hs hkne hlk hhb0
      obtain ⟨inv1, hoth1⟩ := storeInv_loop secret hsns
        ⟨iS, iA, iB, iC, iD1, iD2⟩ (b.map Prod.fst) st
        ⟨iS, iA, iB, iC, iD1, iD2⟩ (fun _ _ _ => rfl) hown
      rcases hld : deleteHandlesLoop secret (b.map Prod.fst) st with ⟨lout, st1⟩
      rw [hld] at hlok hlbkt hlhdl inv1 hoth1
      subst hlok
      obtain ⟨jS, jA, jB, jC, jD1, jD2⟩ := inv1
      obtain ⟨tb, htb⟩ := Option.isSome_iff_exists.mp jS.1
      obtain ⟨ab, hab⟩ := Option.isSome_iff_exists.mp jS.2.1
      have htb1 : alookup (aerase st1.buckets secret) targetsBucketName = some tb := by
        rw [alookup_aerase_ne _ _ _ (fun he => hnt he.symm)]
        exact htb
      have hab1 : alookup (aset (aerase st1.buckets secret) targetsBucketName
          (aerase tb secret)) accountsBucketName = some ab := by
        rw [alookup_aset_ne _ _ _ _ (Ne.symm tb_ne_ab),
          alookup_aerase_ne _ _ _ (fun he => hna he.symm)]
        exact hab
      have hred : DeleteAccount secret st =
          (.ok (), ⟨aset (aset (aerase st1.buckets secret) targetsBucketName
            (aerase tb secret)) accountsBucketName (aerase ab secret)⟩) := by
        unfold DeleteAccount
        simp only [if_neg hs, hlist, hld, htb1, hab1]
      rw [hred]
      have hFA : alookup (aset (aset (aerase st1.buckets secret) targetsBucketName
          (aerase tb secret)) accountsBucketName (aerase ab secret)) accountsBucketName =
          some (aerase ab secret) := alookup_aset_self _ _ _
      have hFT : alookup (aset (aset (aerase st1.buckets secret) targetsBucketName
          (aerase tb secret)) accountsBucketName (aerase ab secret)) targetsBucketName =
          some (aerase tb secret) := by
        rw [alookup_aset_ne _ _ _ _ tb_ne_ab, alookup_aset_self]
      have hFH : alookup (aset (aset (aerase st1.buckets secret) targetsBucketName
          (aerase tb secret)) accountsBucketName (aerase ab secret)) handlesBucketName =
          alookup st1.buckets handlesBucketName := by
        rw [alookup_aset_ne _ _ _ _ (Ne.symm ab_ne_hb),
          alookup_aset_ne _ _ _ _ (Ne.symm tb_ne_hb),
          alookup_aerase_ne _ _ _ (fun he => hnh he.symm)]
      have hFsec : alookup (aset (aset (aerase st1.buckets secret) targetsBucketName
          (aerase tb secret)) accountsBucketName (aerase ab secret)) secret = none := by
        rw [alookup_aset_ne _ _ _ _ hna, alookup_aset_ne _ _ _ _ hnt, alookup_aerase_self]
      have hFo : ∀ n, n ≠ accountsBucketName → n ≠ targetsBucketName → n ≠ secret →
          alookup (aset (aset (aerase st1.buckets secret) targetsBucketName
            (aerase tb secret)) accountsBucketName (aerase ab secret)) n =
          alookup st1.buckets n := by
        intro n h1 h2 h3
        rw [alookup_aset_ne _ _ _ _ h1, alookup_aset_ne _ _ _ _ h2,
          alookup_aerase_ne _ _ _ h3]
      refine ⟨⟨by rw [hFT]; rfl, by rw [hFA]; rfl, by rw [hFH]; exact jS.2.2⟩,
        ?_, ?_, ?_, ?_, ?_⟩
      · intro s2 h hown2
        obtain ⟨hns2, b2, hb2, hm2⟩ := hown2
        obtain ⟨hn1, hn2, hn3⟩ := not_static_iff.mp hns2
        by_cases hss : s2 = secret
        · subst hss
          rw [hFsec] at hb2
          cases hb2
        · rw [hFo s2 hn2 hn1 hss] at hb2
          obtain ⟨hbk, hhbk, hmk⟩ := jA s2 h ⟨hns2, b2, hb2, hm2⟩
          exact ⟨hbk, by rw [hFH]; exact hhbk, hmk⟩
      · intro h hg
        obtain ⟨hbk, hhbk2, hmk⟩ := hg
        rw [hFH] at hhbk2
        obtain ⟨s0, hns0, b0, hb0, hm0⟩ := jB h ⟨hbk, hhbk2, hmk⟩
        obtain ⟨hm1, hm2, hm3⟩ := not_static_iff.mp hns0
        by_cases hs0 : s0 = secret
        · subst hs0
          rw [hlbkt] at hb0
          cases hb0
          obtain ⟨hmb, hnot⟩ := alookup_foldl_aerase_isSome _ _ _ hm0
          exact absurd (mem_keys_of_alookup_isSome hmb) hnot
        · exact ⟨s0, hns0, b0, by rw [hFo s0 hm2 hm1 hs0]; exact hb0, hm0⟩
      · intro s1 s2 h h1 h2
        have htr : ∀ s3, ownedIn ⟨aset (aset (aerase st1.buckets secret) targetsBucketName
            (aerase tb secret)) accountsBucketName (aerase ab secret)⟩ s3 h →
            ownedIn st1 s3 h := by
          intro s3 ⟨hns3, b3, hb3, hm3⟩
          obtain ⟨hq1, hq2, hq3⟩ := not_static_iff.mp hns3
          by_cases hs3 : s3 = secret
          · subst hs3
            rw [hFsec] at hb3
            cases hb3
          · rw [hFo s3 hq2 hq1 hs3] at hb3
            exact ⟨hns3, b3, hb3, hm3⟩
        exact jC s1 s2 h (htr s1 h1) (htr s2 h2)
      · intro hbk hhbk2
        rw [hFH] at hhbk2
        exact jD1 hbk hhbk2
      · intro s2 b2 hns2 hb2
        obtain ⟨hn1, hn2, hn3⟩ := not_static_iff.mp hns2
        by_cases hss : s2 = secret
        · subst hss
          rw [hFsec] at hb2
          cases hb2
        · rw [hFo s2 hn2 hn1 hss] at hb2
          exact jD2 s2 b2 hns2 hb2

theorem storeInv_reachableOwn {st : Store} (h : ReachableOwn st) : storeInv st := by
  induction h with
  | init => exact storeInv_initial
  | newAccount now s t _ ih => exact storeInv_newAccount now s t ih
  | deleteAccount s _ hns ih => exact storeInv_deleteAccount s hns ih
  | newHandle now s h0 _ hns ih => exact storeInv_newHandle now s h0 hns ih
  | deleteHandle s h0 _ hns hguard ih =>
    refine (storeInv_deleteHandle_step s h0 hns ih ih (fun _ _ _ => rfl) ?_).1
    intro hbx hhbx hg b2 hb2
    unfold ownsOrAbsent at hguard
    rw [hhbx, hb2] at hguard
    simp only [Option.getD_some, hg, Bool.not_true, Bool.false_or] at hguard
    exact ⟨hns, b2, hb2, hguard⟩

/-!  Helper lemmas classifying the errors each operation can produce.  -/

theorem GetAccountTarget_err {secret : String} {st : Store} {e : PError}
    (h : GetAccountTarget secret st = .err e) :
    e = .emptySecret ∨ e = .accountNotFound := by
  unfold GetAccountTarget at h
  by_cases hs : secret = ""
  · simp [hs] at h
    exact Or.inl h.symm
  · rw [if_neg hs] at h
    cases htb : alookup st.buckets targetsBucketName with
    | none =>
      simp only [htb] at h
      cases h
    | some tb =>
      simp only [htb] at h
      cases ht : alookup tb secret with
      | none =>
        simp only [ht] at h
        cases h
        exact Or.inr rfl
      | some t =>
        simp only [ht] at h
        cases h

theorem NewAccountHandle_err {now : Nat} {secret handle : String} {st : Store}
    {e : PError} {st1 : Store}
    (h : NewAccountHandle now secret handle st = (.err e, st1)) :
    e = .emptySecret ∨ e = .accountNotFound ∨ e = .handleExists ∨ e = .keyRequired := by
  unfold NewAccountHandle at h
  by_cases hs : secret = ""
  · simp [hs] at h
    exact Or.inl h.1.symm
  · rw [if_neg hs] at h
    cases hlk : alookup st.buckets secret with
    | none =>
      simp only [hlk] at h
      cases h
      exact Or.inr (Or.inl rfl)
    | some b =>
      simp only [hlk] at h
      cases hhb : alookup st.buckets handlesBucketName with
      | none =>
        simp only [hhb] at h
        cases h
      | some hb =>
        simp only [hhb] at h
        cases hfr : alookup hb handle with
        | some v =>
          simp only [hfr] at h
          cases h
          exact Or.inr (Or.inr (Or.inl rfl))
        | none =>
          simp only [hfr] at h
          by_cases hh : handle = ""
          · rw [if_pos hh] at h
            cases h
            exact Or.inr (Or.inr (Or.inr rfl))
          · rw [if_neg hh] at h
            cases hfin : alookup (aset st.buckets secret (aset b handle (gobTime now)))
                handlesBucketName with
            | none =>
              simp only [hfin] at h
              cases h
            | some hb1 =>
              simp only [hfin] at h
              cases h

theorem NewAccount_err {now : Nat} {secret target : String} {st : Store}
    {e : PError} {st1 : Store}
    (h : NewAccount now secret target st = (.err e, st1)) :
    e = .emptySecret ∨ e = .emptyTarget ∨ e = .accountExists := by
  unfold NewAccount at h
  by_cases hs : secret = ""
  · simp [hs] at h
    exact Or.inl h.1.symm
  · by_cases ht : target = ""
    · simp [hs, ht] at h
      exact Or.inr (Or.inl h.1.symm)
    · rw [if_neg hs, if_neg ht] at h
      cases hlk : alookup st.buckets secret with
      | none =>
        simp only [hlk] at h
        cases htb : alookup (aset st.buckets secret []) targetsBucketName with
        | none =>
          simp only [htb] at h
          cases h
        | some tb =>
          simp only [htb] at h
          cases hab : alookup (aset (aset st.buckets secret []) targetsBucketName
              (aset tb secret target)) accountsBucketName with
          | none =>
            simp only [hab] at h
            cases h
          | some ab =>
            simp only [hab] at h
            cases h
      | some b =>
        simp only [hlk] at h
        cases h
        exact Or.inr (Or.inr rfl)

theorem ListAccountHandles_err {secret : String} {st : Store} {e : PError}
    (h : ListAccountHandles secret st = .err e) : e = .emptySecret := by
  unfold ListAccountHandles at h
  by_cases hs : secret = ""
  · simp [hs] at h
    exact h.symm
  · rw [if_neg hs] at h
    cases hlk : alookup st.buckets secret with
    | none =>
      simp only [hlk] at h
      cases h
    | some b =>
      simp only [hlk] at h
      cases h

theorem DeleteAccountHandle_ok {secret handle : String} {st : Store}
    (hhb : (alookup st.buckets handlesBucketName).isSome = true) :
    (DeleteAccountHandle secret handle st).1 = .ok () := by
  unfold DeleteAccountHandle
  by_cases hge : secret = "" ∨ handle = ""
  · simp [hge]
  · cases hlk : alookup st.buckets secret with
    | none => simp [hge, hlk]
    | some b =>
      by_cases hsh : secret = handlesBucketName
      · subst hsh
        have hself : alookup (aset st.buckets handlesBucketName (aerase b handle))
            handlesBucketName = some (aerase b handle) := alookup_aset_self _ _ _
        simp [hge, hlk, hself]
      · obtain ⟨hbv, hbe⟩ := Option.isSome_iff_exists.mp hhb
        have hne : alookup (aset st.buckets secret (aerase b handle)) handlesBucketName
            = some hbv := by
          rw [alookup_aset_ne _ _ _ _ (fun he => hsh he.symm)]
          exact hbe
        simp [hge, hlk, hne]

/-!  Map-file removal as a filter.  -/

theorem removeHandleLines_eq_filter (h : String) (ls : List String) :
    removeHandleLines h ls = ls.filter (fun l => !(goStartsWith l h)) := by
  induction ls with
  | nil => rfl
  | cons l rest ih =>
    by_cases hp : goStartsWith l h = true
    · simp [removeHandleLines, hp, ih]
    · simp [removeHandleLines, hp, ih]

/-!  Random generator alphabet facts.  -/

theorem charForByte_mem (b : Nat) : charForByte b ∈ allowedCharacters.data := by
  have hidx : Nat.land (b % 256) indexMask % allowedCharactersNum < 62 := by
    have h62 : allowedCharactersNum = 62 := by decide
    rw [h62]
    exact Nat.mod_lt _ (by decide)
  have hball : ∀ m, m < 62 → allowedCharacters.data.getD m ('a') ∈ allowedCharacters.data := by
    decide
  exact hball _ hidx

theorem bitsPerIndex_eq : bitsPerIndex = 6 := by
  have h62 : allowedCharactersNum = 62 := by decide
  have h1 : Nat.clog 2 62 ≤ 6 :=
    (Nat.le_pow_iff_clog_le (by norm_num)).mp (by norm_num)
  have h2 : 5 < Nat.clog 2 62 :=
    (Nat.pow_lt_iff_lt_clog (by norm_num)).mp (by norm_num)
  unfold bitsPerIndex
  rw [h62]
  omega

theorem indexMask_eq : indexMask = 63 := by
  unfold indexMask
  rw [bitsPerIndex_eq]
  norm_num

/-!  Claim theorems.  -/

/-- Claim C1, counterexample to the claim as stated: four persistence
operations — create account `a`, create account `b`, create handle `h`
under `a`, then `DeleteAccountHandle` with account `b`'s secret for
handle `h` — produce a state where `h` is still present in its owning
account `a`'s bucket while absent from the global handle index, so one
membership check passes and the other fails. -/
theorem c1_counterexample :
    (alookup
        ((alookup (runOps [.newAccount 0 ("a") ("t"), .newAccount 1 ("b") ("u"),
            .newHandle 2 ("a") ("h"), .deleteHandle ("b") ("h")]).buckets ("a")).getD [])
        ("h")).isSome = true ∧
      HasHandleGlobal ("h") (runOps [.newAccount 0 ("a") ("t"), .newAccount 1 ("b") ("u"),
        .newHandle 2 ("a") ("h"), .deleteHandle ("b") ("h")]) = false := by
  decide

/-- Claim C1 (amended): in every state reachable by persistence
operations in which delete-account, create-handle and delete-handle are
never invoked with a secret equal to one of the three reserved bucket
names (`targets`/`accounts`/`handles`, which share the store's top-level
bucket namespace with the per-account buckets) and each delete-handle
call is owner-scoped (the deleted handle is globally absent or sits in
the calling account's own bucket), a handle key present in any account's
bucket is present in the global handle index and vice versa.  Without the
restrictions the invariant fails: a delete-handle through a different
existing account removes the handle from the global index only (see the
counterexample), and a create-handle with secret `handles` writes an
ownerless handle into the global index alone. -/
theorem c1_handle_index_invariant (st : Store) (h : ReachableOwn st) :
    nsToGlobal st ∧ globalToNs st :=
  ⟨(storeInv_reachableOwn h).2.1, (storeInv_reachableOwn h).2.2.1⟩

/-- Witness for C1: a concrete reachable state (create account, create
handle, owner-scoped delete) satisfying the invariant. -/
theorem c1_witness :
    nsToGlobal (runOps [.newAccount 0 ("a") ("t"), .newHandle 1 ("a") ("h"),
        .deleteHandle ("a") ("h")]) ∧
      globalToNs (runOps [.newAccount 0 ("a") ("t"), .newHandle 1 ("a") ("h"),
        .deleteHandle ("a") ("h")]) :=
  c1_handle_index_invariant _
    (ReachableOwn.deleteHandle ("a") ("h")
      (ReachableOwn.newHandle 1 ("a") ("h")
        (ReachableOwn.newAccount 0 ("a") ("t") ReachableOwn.init) (by decide))
      (by decide) (by decide))

/-- Claim C2, counterexample to the claim as stated, in two parts.
Blank handle: with account `a` present and the blank handle absent from
the global index (no claimed error condition applies), `NewAccountHandle`
does not write — the store's blank-key rejection rolls the transaction
back and the store error is returned.  Reserved-name secret: no account
`handles` exists, yet `NewAccountHandle` with that secret does not fail
with `ErrAccountNotFound`; it finds the static `handles` bucket in the
shared top-level namespace and writes the handle into the global index
with no owning account. -/
theorem c2_counterexample :
    ((alookup (runOps [.newAccount 0 ("a") ("t")]).buckets ("a")).isSome = true ∧
      alookup ((alookup (runOps [.newAccount 0 ("a") ("t")]).buckets
        handlesBucketName).getD []) ("") = none ∧
      NewAccountHandle 1 ("a") ("") (runOps [.newAccount 0 ("a") ("t")]) =
        (.err .keyRequired, runOps [.newAccount 0 ("a") ("t")])) ∧
    (HasAccount ("handles") initialStore = false ∧
      (NewAccountHandle 1 ("handles") ("h") initialStore).1 = .ok () ∧
      HasHandleGlobal ("h") ((NewAccountHandle 1 ("handles") ("h") initialStore).2) = true ∧
      HasAccount ("handles") ((NewAccountHandle 1 ("handles") ("h") initialStore).2)
        = false) := by
  decide

/-- Claim C2 (amended): `NewAccountHandle` fails with `ErrEmptySecret` on
an empty secret; fails with `ErrAccountNotFound` exactly when no bucket
with the secret's name exists in the shared top-level bucket namespace —
the three static buckets shadow this check, so a secret equal to
`targets`/`accounts`/`handles` finds that static bucket and proceeds even
though no such account exists; fails with `ErrHandleExists` when the
handle is already present in the global index (ownership-blind, so this
covers a handle owned by a different account); fails, for a blank handle,
with the store's blank-key error; in every failure the store is
unchanged.  Otherwise (non-blank handle, bucket present, handle globally
fresh) it writes the handle with one timestamp into that bucket and into
the global index — for a secret other than `handles` those are the
account's bucket and the index; for the reserved secret `handles` both
writes land in the global index alone, creating an ownerless handle and
no account. -/
theorem c2_new_account_handle (now : Nat) (secret handle : String) (st : Store) :
    (secret = "" → NewAccountHandle now secret handle st = (.err .emptySecret, st)) ∧
    (secret ≠ "" → alookup st.buckets secret = none →
      NewAccountHandle now secret handle st = (.err .accountNotFound, st)) ∧
    (∀ b hb, secret ≠ "" → alookup st.buckets secret = some b →
      alookup st.buckets handlesBucketName = some hb →
      (alookup hb handle).isSome = true →
      NewAccountHandle now secret handle st = (.err .handleExists, st)) ∧
    (∀ b hb, secret ≠ "" → alookup st.buckets secret = some b →
      alookup st.buckets handlesBucketName = some hb →
      alookup hb handle = none → handle = "" →
      NewAccountHandle now secret handle st = (.err .keyRequired, st)) ∧
    (∀ b hb, secret ≠ "" → secret ≠ handlesBucketName →
      alookup st.buckets secret = some b →
      alookup st.buckets handlesBucketName = some hb →
      alookup hb handle = none → handle ≠ "" →
      ∃ st1, NewAccountHandle now secret handle st = (.ok (), st1) ∧
        alookup st1.buckets secret = some (aset b handle (gobTime now)) ∧
        alookup (aset b handle (gobTime now)) handle = some (gobTime now) ∧
        ∃ hb1, alookup st1.buckets handlesBucketName = some hb1 ∧
          alookup hb1 handle = some (gobTime now)) ∧
    (∀ hb, alookup st.buckets handlesBucketName = some hb →
      alookup hb handle = none → handle ≠ "" →
      ∃ st1, NewAccountHandle now handlesBucketName handle st = (.ok (), st1) ∧
        (∃ hb1, alookup st1.buckets handlesBucketName = some hb1 ∧
          alookup hb1 handle = some (gobTime now)) ∧
        (∀ s2, HasAccount s2 st1 = HasAccount s2 st)) := by
  refine ⟨?_, ?_, ?_, ?_, ?_, ?_⟩
  · intro hs
    unfold NewAccountHandle
    simp [hs]
  · intro hs hlk
    unfold NewAccountHandle
    simp [hs, hlk]
  · intro b hb hs hlk hhb hfr
    obtain ⟨v, hv⟩ := Option.isSome_iff_exists.mp hfr
    unfold NewAccountHandle
    simp [hs, hlk, hhb, hv]
  · intro b hb hs hlk hhb hfr hh
    subst hh
    unfold NewAccountHandle
    simp [hs, hlk, hhb, hfr]
  · intro b hb hs hsh hlk hhb hfr hh
    have hhb1 : alookup (aset st.buckets secret (aset b handle (gobTime now)))
        handlesBucketName = some hb := by
      rw [alookup_aset_ne _ _ _ _ (fun he => hsh he.symm)]
      exact hhb
    refine ⟨⟨aset (aset st.buckets secret (aset b handle (gobTime now)))
      handlesBucketName (aset hb handle (gobTime now))⟩, ?_, ?_, ?_, ?_⟩
    · unfold NewAccountHandle
      simp [hs, hlk, hhb, hfr, hh, hhb1]
    · rw [alookup_aset_ne _ _ _ _ hsh]
      exact alookup_aset_self _ _ _
    · exact alookup_aset_self _ _ _
    · exact ⟨aset hb handle (gobTime now), alookup_aset_self _ _ _,
        alookup_aset_self _ _ _⟩
  · intro hb hhb hfr hh
    have hs : handlesBucketName ≠ "" := by decide
    have hhb1 : alookup (aset st.buckets handlesBucketName (aset hb handle (gobTime now)))
        handlesBucketName = some (aset hb handle (gobTime now)) := alookup_aset_self _ _ _
    refine ⟨⟨aset (aset st.buckets handlesBucketName (aset hb handle (gobTime now)))
      handlesBucketName (aset (aset hb handle (gobTime now)) handle (gobTime now))⟩,
      ?_, ?_, ?_⟩
    · unfold NewAccountHandle
      simp [hs, hhb, hfr, hh, hhb1]
    · exact ⟨aset (aset hb handle (gobTime now)) handle (gobTime now),
        alookup_aset_self _ _ _, alookup_aset_self _ _ _⟩
    · intro s2
      unfold HasAccount
      by_cases hs2 : s2 = ""
      · simp [hs2]
      · have hacc : alookup (aset (aset st.buckets handlesBucketName
            (aset hb handle (gobTime now))) handlesBucketName
            (aset (aset hb handle (gobTime now)) handle (gobTime now)))
            accountsBucketName = alookup st.buckets accountsBucketName := by
          rw [alookup_aset_ne _ _ _ _ ab_ne_hb, alookup_aset_ne _ _ _ _ ab_ne_hb]
        simp [hs2, hacc]

/-- Witness for C2: handle `h` exists under account `a`; creating the
same handle string under the different account `b` fails with the
conflict error; and a fresh handle under `b` is written into both the
account bucket and the global index with the same timestamp. -/
theorem c2_witness :
    NewAccountHandle 3 ("b") ("h")
        (runOps [.newAccount 0 ("a") ("t"), .newAccount 1 ("b") ("u"),
          .newHandle 2 ("a") ("h")]) =
      (.err .handleExists,
        runOps [.newAccount 0 ("a") ("t"), .newAccount 1 ("b") ("u"),
          .newHandle 2 ("a") ("h")]) ∧
    ∃ st1, NewAccountHandle 3 ("b") ("h2")
        (runOps [.newAccount 0 ("a") ("t"), .newAccount 1 ("b") ("u"),
          .newHandle 2 ("a") ("h")]) = (.ok (), st1) ∧
      alookup st1.buckets ("b") = some (aset [] ("h2") (gobTime 3)) ∧
      alookup (aset [] ("h2") (gobTime 3)) ("h2") = some (gobTime 3) ∧
      ∃ hb1, alookup st1.buckets handlesBucketName = some hb1 ∧
        alookup hb1 ("h2") = some (gobTime 3) := by
  constructor
  · exact (c2_new_account_handle 3 ("b") ("h")
      (runOps [.newAccount 0 ("a") ("t"), .newAccount 1 ("b") ("u"),
        .newHandle 2 ("a") ("h")])).2.2.1 []
      [(("h"), gobTime 2)] (by decide) (by decide) (by decide) (by decide)
  · exact (c2_new_account_handle 3 ("b") ("h2")
      (runOps [.newAccount 0 ("a") ("t"), .newAccount 1 ("b") ("u"),
        .newHandle 2 ("a") ("h")])).2.2.2.2.1 []
      [(("h"), gobTime 2)] (by decide) (by decide) (by decide) (by decide)
      (by decide) (by decide)

/-- Claim C3 (code evaluation at the failing input): `DeleteAccount` on a
non-empty secret that names no existing account is not a silent no-op —
`ListAccountHandles` iterates a nil bucket and the process panics (the
enclosing transaction is rolled back, so the store is unchanged only
because the crash aborts everything). -/
theorem c3_delete_missing_account_panics :
    DeleteAccount ("ghost") initialStore = (.panicked, initialStore) := by
  decide

/-- Claim C4 (code evaluation at the failing input): a `delete` command
whose sub-object token is neither `handle` nor `account` matches no case
of the sub-object switch, which has no default; nothing is enqueued, no
local error is returned, and the final receives on the untouched
result/error channels block the caller forever. -/
theorem c4_delete_unknown_subobject_blocks :
    SendCommand ("rpc") ("delete foo") = .blockedForever := by
  decide

/-- Claim C5: `handleCommands` rejects `new account`, `delete handle` and
`delete account` from the `"websocket"` source with the permission error,
returning the server state — store and map file — unchanged, before any
persistence or synchronizer call; a `new handle` command carries no
source check and executes identically from `"websocket"` and from any
other source. -/
theorem c5_websocket_permission_filter (domain : String) (now : Nat)
    (cands : List String) (s : Srv) (target handle secret src : String) :
    execCommand domain now cands (.newAccountCommand ("websocket") target) s =
        .reply ("") (some .invalidPermission) s ∧
      execCommand domain now cands (.deleteHandleCommand ("websocket") handle secret) s =
        .reply ("") (some .invalidPermission) s ∧
      execCommand domain now cands (.deleteAccountCommand ("websocket") secret) s =
        .reply ("") (some .invalidPermission) s ∧
      execCommand domain now cands (.newHandleCommand ("websocket") secret) s =
        execCommand domain now cands (.newHandleCommand src secret) s := by
  refine ⟨?_, ?_, ?_, rfl⟩ <;> simp [execCommand]

/-- Claim C6, counterexample to the claim as stated: `targets` is a
non-empty secret for which no account exists (`HasAccount` is false on
the fresh store), yet `NewAccount` fails with the conflict error instead
of succeeding — the existence check `tx.Bucket(secret)` finds the static
`targets` bucket, which shares the top-level bucket namespace with the
per-account buckets. -/
theorem c6_counterexample :
    HasAccount ("targets") initialStore = false ∧
      NewAccount 0 ("targets") ("t@x") initialStore =
        (.err .accountExists, initialStore) := by
  decide

/-- Claim C6 (amended): `NewAccount` fails with `ErrEmptySecret` on an
empty secret and with `ErrEmptyTarget` on an empty target, leaving the
store untouched; it fails with `ErrAccountExists` whenever a bucket with
the secret's name exists in the shared top-level bucket namespace — in
particular always for a secret equal to one of the reserved names
`targets`/`accounts`/`handles`, even though no such account exists; and
for a non-empty secret and target with no bucket of that name (in a store
whose static buckets are intact, as in every committed state) it
succeeds, creates the secret's bucket and writes the target and
creation-time entries, after which `HasAccount` returns true. -/
theorem c6_new_account (now : Nat) (secret target : String) (st : Store) :
    (secret = "" → NewAccount now secret target st = (.err .emptySecret, st)) ∧
    (secret ≠ "" → target = "" → NewAccount now secret target st = (.err .emptyTarget, st)) ∧
    (∀ b, secret ≠ "" → target ≠ "" → alookup st.buckets secret = some b →
      NewAccount now secret target st = (.err .accountExists, st)) ∧
    (isStaticName secret = true → target ≠ "" → staticOk st →
      NewAccount now secret target st = (.err .accountExists, st)) ∧
    (secret ≠ "" → target ≠ "" → alookup st.buckets secret = none → staticOk st →
      ∃ st1, NewAccount now secret target st = (.ok (), st1) ∧
        alookup st1.buckets secret = some [] ∧
        (∃ tb1, alookup st1.buckets targetsBucketName = some tb1 ∧
          alookup tb1 secret = some target) ∧
        (∃ ab1, alookup st1.buckets accountsBucketName = some ab1 ∧
          alookup ab1 secret = some (gobTime now)) ∧
        HasAccount secret st1 = true) := by
  refine ⟨?_, ?_, ?_, ?_, ?_⟩
  · intro hs
    unfold NewAccount
    simp [hs]
  · intro hs ht
    unfold NewAccount
    simp [hs, ht]
  · intro b hs ht hlk
    unfold NewAccount
    simp [hs, ht, hlk]
  · intro hstat ht hso
    have hdis : (secret = targetsBucketName ∨ secret = accountsBucketName) ∨
        secret = handlesBucketName := by
      unfold isStaticName at hstat
      simpa using hstat
    obtain ⟨h1, h2, h3⟩ := hso
    have hs : secret ≠ "" := by
      rcases hdis with (he | he) | he <;> subst he <;> decide
    rcases hdis with (he | he) | he
    · obtain ⟨b, hb⟩ := Option.isSome_iff_exists.mp h1
      rw [← he] at hb
      unfold NewAccount
      simp [hs, ht, hb]
    · obtain ⟨b, hb⟩ := Option.isSome_iff_exists.mp h2
      rw [← he] at hb
      unfold NewAccount
      simp [hs, ht, hb]
    · obtain ⟨b, hb⟩ := Option.isSome_iff_exists.mp h3
      rw [← he] at hb
      unfold NewAccount
      simp [hs, ht, hb]
  · intro hs ht hlk hso
    obtain ⟨hnt, hna, hnh⟩ := not_static_iff.mp (not_static_of_staticOk_none hso hlk)
    obtain ⟨tb, htb⟩ := Option.isSome_iff_exists.mp hso.1
    obtain ⟨ab, hab⟩ := Option.isSome_iff_exists.mp hso.2.1
    have htb1 : alookup (aset st.buckets secret ([] : List (String × String)))
        targetsBucketName = some tb := by
      rw [alookup_aset_ne _ _ _ _ (fun he => hnt he.symm)]
      exact htb
    have hab1 : alookup (aset (aset st.buckets secret []) targetsBucketName
        (aset tb secret target)) accountsBucketName = some ab := by
      rw [alookup_aset_ne _ _ _ _ (Ne.symm tb_ne_ab),
        alookup_aset_ne _ _ _ _ (fun he => hna he.symm)]
      exact hab
    refine ⟨⟨aset (aset (aset st.buckets secret []) targetsBucketName
      (aset tb secret target)) accountsBucketName (aset ab secret (gobTime now))⟩,
      ?_, ?_, ?_, ?_, ?_⟩
    · unfold NewAccount
      simp [hs, ht, hlk, htb1, hab1]
    · rw [alookup_aset_ne _ _ _ _ hna, alookup_aset_ne _ _ _ _ hnt]
      exact alookup_aset_self _ _ _
    · refine ⟨aset tb secret target, ?_, alookup_aset_self _ _ _⟩
      rw [alookup_aset_ne _ _ _ _ tb_ne_ab]
      exact alookup_aset_self _ _ _
    · exact ⟨aset ab secret (gobTime now), alookup_aset_self _ _ _,
        alookup_aset_self _ _ _⟩
    · unfold HasAccount
      rw [if_neg hs, alookup_aset_self]
      simp [alookup_aset_self]

/-- Witness for C6: both validation failures, the reserved-name conflict,
and a successful creation on the fresh store with `HasAccount` true
afterwards. -/
theorem c6_witness :
    NewAccount 0 ("") ("t@x") initialStore = (.err .emptySecret, initialStore) ∧
      NewAccount 0 ("s") ("") initialStore = (.err .emptyTarget, initialStore) ∧
      NewAccount 0 ("accounts") ("t@x") initialStore =
        (.err .accountExists, initialStore) ∧
      ∃ st1, NewAccount 0 ("s") ("t@x") initialStore = (.ok (), st1) ∧
        alookup st1.buckets ("s") = some [] ∧
        (∃ tb1, alookup st1.buckets targetsBucketName = some tb1 ∧
          alookup tb1 ("s") = some ("t@x")) ∧
        (∃ ab1, alookup st1.buckets accountsBucketName = some ab1 ∧
          alookup ab1 ("s") = some (gobTime 0)) ∧
        HasAccount ("s") st1 = true := by
  refine ⟨?_, ?_, ?_, ?_⟩
  · exact (c6_new_account 0 ("") ("t@x") initialStore).1 rfl
  · exact (c6_new_account 0 ("s") ("") initialStore).2.1 (by decide) rfl
  · exact (c6_new_account 0 ("accounts") ("t@x") initialStore).2.2.2.1 (by decide)
      (by decide) ⟨by decide, by decide, by decide⟩
  · exact (c6_new_account 0 ("s") ("t@x") initialStore).2.2.2.2 (by decide) (by decide)
      (by decide) ⟨by decide, by decide, by decide⟩

/-- Claim C7: in a state that contains an account with secret `S` (its
bucket exists) whose stored target is `T`, a second `NewAccount` with the
same secret and any non-empty target fails with the conflict error
`ErrAccountExists`, leaves the store unchanged, and `GetAccountTarget`
still returns `T` afterwards. -/
theorem c7_duplicate_account (now : Nat) (secret target2 tgt : String) (st : Store)
    (b : List (String × String)) (hs : secret ≠ "") (ht : target2 ≠ "")
    (hns : alookup st.buckets secret = some b)
    (htg : GetAccountTarget secret st = .ok tgt) :
    NewAccount now secret target2 st = (.err .accountExists, st) ∧
      GetAccountTarget secret (NewAccount now secret target2 st).2 = .ok tgt := by
  have h1 : NewAccount now secret target2 st = (.err .accountExists, st) := by
    unfold NewAccount
    simp [hs, ht, hns]
  refine ⟨h1, ?_⟩
  rw [h1]
  exact htg

/-- Witness for C7: after creating account `s` with target `t@x`, a
duplicate creation with a different target fails with the conflict error
and the stored target is unchanged. -/
theorem c7_witness :
    NewAccount 1 ("s") ("u@x") (runOps [.newAccount 0 ("s") ("t@x")]) =
        (.err .accountExists, runOps [.newAccount 0 ("s") ("t@x")]) ∧
      GetAccountTarget ("s")
          (NewAccount 1 ("s") ("u@x") (runOps [.newAccount 0 ("s") ("t@x")])).2 =
        .ok ("t@x") :=
  c7_duplicate_account 1 ("s") ("u@x") ("t@x") (runOps [.newAccount 0 ("s") ("t@x")])
    [] (by decide) (by decide) (by decide) (by decide)

/-- Claim C8: `generateRandomString` fails exactly when the secure random
source fails; otherwise it consumes one random byte per output character
(byte `i` alone determines character `i`, through the mask-and-modulo
index computation of `charForByte`) and returns exactly `size`
characters, each drawn from the 62-symbol alphabet; the mask covers the
minimum number of bits for the alphabet size. -/
theorem c8_generate_random (size : Nat) :
    generateRandomString size none = none ∧
      allowedCharactersNum = 62 ∧ bitsPerIndex = 6 ∧ indexMask = 63 ∧
      ∀ f : Nat → Nat, ∃ s, generateRandomString size (some f) = some s ∧
        s.length = size ∧
        (∀ i, i < size → s.data[i]? = some (charForByte (f i))) ∧
        (∀ c, c ∈ s.data → c ∈ allowedCharacters.data) := by
  refine ⟨rfl, by decide, bitsPerIndex_eq, indexMask_eq, ?_⟩
  intro f
  refine ⟨String.mk ((List.range size).map (fun i => charForByte (f i))), rfl, ?_, ?_, ?_⟩
  · show ((List.range size).map (fun i => charForByte (f i))).length = size
    simp
  · intro i hi
    show ((List.range size).map (fun i => charForByte (f i)))[i]? = _
    rw [List.getElem?_map, List.getElem?_range hi]
    rfl
  · intro c hc
    rcases List.mem_map.mp hc with ⟨i, _, hci⟩
    rw [← hci]
    exact charForByte_mem (f i)

/-- Witness for C8: a length-3 string from a concrete byte source, with
its first character determined by byte 0. -/
theorem c8_witness :
    ∃ s, generateRandomString 3 (some (fun _ => 7)) = some s ∧ s.length = 3 ∧
      s.data[0]? = some (charForByte 7) := by
  obtain ⟨s, h1, h2, h3, _⟩ := (c8_generate_random 3).2.2.2.2 (fun _ => 7)
  exact ⟨s, h1, h2, h3 0 (by decide)⟩

/-- Claim C9: `RemoveHandle` replaces the map-file content with exactly
the subsequence of original lines that do not start with the handle — the
result is the filter of the original lines, a sublist of them (original
order preserved, kept lines unchanged), containing every original line
not starting with the handle and none that does — and it invokes the
`postmap` index rebuild once. -/
theorem c9_remove_handle (h : String) (m : MailMap) :
    (RemoveHandle h m).lines = m.lines.filter (fun l => !(goStartsWith l h)) ∧
      List.Sublist (RemoveHandle h m).lines m.lines ∧
      (∀ l, l ∈ (RemoveHandle h m).lines → l ∈ m.lines ∧ goStartsWith l h = false) ∧
      (∀ l, l ∈ m.lines → goStartsWith l h = false → l ∈ (RemoveHandle h m).lines) ∧
      (RemoveHandle h m).rebuilds = m.rebuilds + 1 := by
  have hfil : (RemoveHandle h m).lines = m.lines.filter (fun l => !(goStartsWith l h)) :=
    removeHandleLines_eq_filter h m.lines
  refine ⟨hfil, ?_, ?_, ?_, rfl⟩
  · rw [hfil]
    exact List.filter_sublist _
  · intro l hl
    rw [hfil] at hl
    have hm := List.mem_filter.mp hl
    refine ⟨hm.1, ?_⟩
    have := hm.2
    simpa using this
  · intro l hl hns
    rw [hfil]
    exact List.mem_filter.mpr ⟨hl, by simp [hns]⟩

/-- Witness for C9: removing handle `ab` from a two-line map file keeps
exactly the non-matching line and rebuilds the index once. -/
theorem c9_witness :
    (RemoveHandle ("ab") ⟨[("ab@d x"), ("cd@d y")], 0⟩).lines = [("cd@d y")] ∧
      ("cd@d y") ∈ (RemoveHandle ("ab") ⟨[("ab@d x"), ("cd@d y")], 0⟩).lines ∧
      (RemoveHandle ("ab") ⟨[("ab@d x"), ("cd@d y")], 0⟩).rebuilds = 1 := by
  have hm := c9_remove_handle ("ab") ⟨[("ab@d x"), ("cd@d y")], 0⟩
  refine ⟨?_, ?_, hm.2.2.2.2⟩
  · rw [hm.1]
    decide
  · exact hm.2.2.2.1 ("cd@d y") (by decide) (by decide)

/-- Claim C10: when the account exists (and the static global handle
index is in place, as in every committed state), the actor's
delete-handle execution replies `"success"` with no error for every
handle string — including one that exists nowhere or is owned by a
different account (the deletion outcomes are ignored by the source);
moreover no command execution, handle listing, or command parse ever
produces the (declared but unused) handle-not-found error. -/
theorem c10_delete_handle_success :
    (∀ domain now cands src handle secret s,
      src ≠ ("websocket") → HasAccount secret (Srv.store s) = true →
      (alookup (Srv.store s).buckets handlesBucketName).isSome = true →
      execCommand domain now cands (.deleteHandleCommand src handle secret) s =
        .reply ("success") none
          ⟨(DeleteAccountHandle secret handle s.store).2, RemoveHandle handle s.mail⟩) ∧
    (∀ domain now cands c s,
      outErr (execCommand domain now cands c s) ≠ some .handleNotFound) ∧
    (∀ secret st, ServerListHandles secret st ≠ .err .handleNotFound) ∧
    (∀ source args e, SendCommand source args = .localError e → e ≠ .handleNotFound) := by
  refine ⟨?_, ?_, ?_, ?_⟩
  · intro domain now cands src handle secret s hsrc hacc hhb
    have hok := @DeleteAccountHandle_ok secret handle s.store hhb
    rcases hd : DeleteAccountHandle secret handle s.store with ⟨out, st1⟩
    rw [hd] at hok
    simp at hok
    subst hok
    unfold execCommand ServerDeleteHandle
    simp [hsrc, hacc, hd]
  · intro domain now cands c s
    cases c with
    | newHandleCommand src sec =>
      show outErr (ServerNewHandle domain now cands sec s) ≠ some .handleNotFound
      unfold ServerNewHandle
      cases hgt : GetAccountTarget sec s.store with
      | err e =>
        rcases GetAccountTarget_err hgt with he | he <;> subst he <;> simp [outErr]
      | panicked => simp [outErr]
      | ok target =>
        cases hff : firstFreshHandle s.store cands with
        | none => simp [outErr]
        | some nh =>
          rcases hna : NewAccountHandle now sec nh s.store with ⟨out, st1⟩
          cases out with
          | err e =>
            rcases NewAccountHandle_err hna with he | he | he | he <;> subst he <;>
              simp [hna, outErr]
          | panicked => simp [hna, outErr]
          | ok u => simp [hna, outErr]
    | newAccountCommand src target =>
      by_cases hw : src = ("websocket")
      · simp [execCommand, hw, outErr]
      · show outErr (execCommand domain now cands (.newAccountCommand src target) s) ≠
          some .handleNotFound
        unfold execCommand
        simp only [hw, ite_false]
        unfold ServerNewAccount
        cases hff : firstFreshSecret s.store cands with
        | none => simp [outErr]
        | some sec =>
          rcases hna : NewAccount now sec target s.store with ⟨out, st1⟩
          cases out with
          | err e =>
            rcases NewAccount_err hna with he | he | he <;> subst he <;> simp [hna, outErr]
          | panicked => simp [hna, outErr]
          | ok u => simp [hna, outErr]
    | deleteHandleCommand src handle secret =>
      by_cases hw : src = ("websocket")
      · simp [execCommand, hw, outErr]
      · show outErr (execCommand domain now cands (.deleteHandleCommand src handle secret) s) ≠
          some .handleNotFound
        unfold execCommand ServerDeleteHandle
        by_cases hacc : HasAccount secret s.store
        · rcases hd : DeleteAccountHandle secret handle s.store with ⟨out, st1⟩
          cases out <;> simp [hw, hacc, hd, outErr]
        · simp [hw, hacc, outErr]
    | deleteAccountCommand src secret =>
      by_cases hw : src = ("websocket")
      · simp [execCommand, hw, outErr]
      · show outErr (execCommand domain now cands (.deleteAccountCommand src secret) s) ≠
          some .handleNotFound
        unfold execCommand ServerDeleteAccount
        by_cases hacc : HasAccount secret s.store
        · cases hls : ListAccountHandles secret s.store with
          | err e =>
            have he := ListAccountHandles_err hls
            subst he
            simp [hw, hacc, hls, outErr]
          | panicked => simp [hw, hacc, hls, outErr]
          | ok hs2 =>
            rcases hda : DeleteAccount secret s.store with ⟨out, st1⟩
            cases out <;> simp [hw, hacc, hls, hda, outErr]
        · simp [hw, hacc, outErr]
  · intro secret st heq
    unfold ServerListHandles at heq
    by_cases hacc : HasAccount secret st
    · rw [if_pos hacc] at heq
      exact PError.noConfusion (ListAccountHandles_err heq)
    · rw [if_neg hacc] at heq
      cases heq
  · intro source args e heq
    unfold SendCommand at heq
    iterate 10 (all_goals (try split at heq))
    all_goals (try (cases heq))
    all_goals decide

/-- Witness for C10: with account `sec` present and the handle index
intact, deleting the nowhere existing handle `nope` from a non-websocket
source replies `"success"` with no error. -/
theorem c10_witness :
    execCommand ("@dom") 5 [] (.deleteHandleCommand ("rpc") ("nope") ("sec"))
        ⟨runOps [.newAccount 0 ("sec") ("t@x")], ⟨[], 0⟩⟩ =
      .reply ("success") none
        ⟨(DeleteAccountHandle ("sec") ("nope") (runOps [.newAccount 0 ("sec") ("t@x")])).2,
          RemoveHandle ("nope") ⟨[], 0⟩⟩ :=
  c10_delete_handle_success.1 ("@dom") 5 [] ("rpc") ("nope") ("sec")
    ⟨runOps [.newAccount 0 ("sec") ("t@x")], ⟨[], 0⟩⟩ (by decide) (by decide) (by decide)
